import Mathlib

/-!
Verification of the options-scanner formula engine against its
natural-language specification.

The development shallowly embeds the JavaScript engine
(services/stage4Engine.js in its two concatenated iterations, the
"NO LIMITATIONS" iteration of the same file, the threshold classifier of
controllers/stage4Controller.js) into Lean.  Numbers are modelled by the
rationals: every numeric value the engine manipulates on the inputs
considered here is finite, and the model treats the production of a
non-finite intermediate (division by zero, logarithms, square roots)
as an evaluation error, which the engine code catches exactly where it
catches JavaScript exceptions.  The mathjs dependency is modelled by a
small parser and evaluator covering the expression language the engine
feeds to it: numbers, double-quoted strings, identifiers, function calls,
parentheses, unary minus and the four arithmetic operators; scope lookup
failures raise errors just as mathjs raises Undefined symbol / Undefined
function errors.  Assignment expressions and the mathjs builtin
namespace beyond the functions the engine itself injects are outside the
model; no formula considered in the claims uses them.
-/

set_option maxRecDepth 8000
set_option maxHeartbeats 1600000

/-- One OHLCV+Greek candle.  The JS field named open is called copen
here because open is a Lean keyword; all twelve numeric fields of the
bar object are present.  The time field plays no role in evaluation and
is omitted. -/
structure Candle where
  copen : ℚ := 0
  high : ℚ := 0
  low : ℚ := 0
  close : ℚ := 0
  volume : ℚ := 0
  oi : ℚ := 0
  delta : ℚ := 0
  gamma : ℚ := 0
  theo : ℚ := 0
  mark : ℚ := 0
  ask : ℚ := 0
  bid : ℚ := 0
deriving Repr, DecidableEq

/-- The twelve fixed base-series names, in the order the source lists
them. -/
def baseSeriesNames : List String :=
  ["open", "high", "low", "close", "volume", "oi",
   "delta", "gamma", "theo", "mark", "ask", "bid"]

/-- buildSeries (both engine iterations): one numeric array per base
series name.  The JS Number(c.x) || 0 coercion is the identity on the
rational-valued model. -/
structure SeriesMap where
  sopen : List ℚ
  shigh : List ℚ
  slow : List ℚ
  sclose : List ℚ
  svolume : List ℚ
  soi : List ℚ
  sdelta : List ℚ
  sgamma : List ℚ
  stheo : List ℚ
  smark : List ℚ
  sask : List ℚ
  sbid : List ℚ
deriving Repr, DecidableEq

def buildSeries (candles : List Candle) : SeriesMap where
  sopen := candles.map Candle.copen
  shigh := candles.map Candle.high
  slow := candles.map Candle.low
  sclose := candles.map Candle.close
  svolume := candles.map Candle.volume
  soi := candles.map Candle.oi
  sdelta := candles.map Candle.delta
  sgamma := candles.map Candle.gamma
  stheo := candles.map Candle.theo
  smark := candles.map Candle.mark
  sask := candles.map Candle.ask
  sbid := candles.map Candle.bid

/-- The series[name] lookup on the series object: a fixed record, so an
unknown name yields undefined (none). -/
def seriesGet (sm : SeriesMap) (name : String) : Option (List ℚ) :=
  if name = "open" then some sm.sopen
  else if name = "high" then some sm.shigh
  else if name = "low" then some sm.slow
  else if name = "close" then some sm.sclose
  else if name = "volume" then some sm.svolume
  else if name = "oi" then some sm.soi
  else if name = "delta" then some sm.sdelta
  else if name = "gamma" then some sm.sgamma
  else if name = "theo" then some sm.stheo
  else if name = "mark" then some sm.smark
  else if name = "ask" then some sm.sask
  else if name = "bid" then some sm.sbid
  else none

/-- getAt (stage4Engine.js, first iteration, lines 202-207): out-of-range
or negative indices yield 0, in-range finite values are returned.  The
index is an integer because offset arithmetic can go negative. -/
def getAt (arr : List ℚ) (idx : Int) : ℚ :=
  if idx < 0 then 0
  else if (arr.length : Int) ≤ idx then 0
  else arr.getD idx.toNat 0

/-- getAt for a possibly fractional JS index: a fractional array index
reads undefined, which the source maps to 0. -/
def getAtQ (arr : List ℚ) (idx : ℚ) : ℚ :=
  if idx.den = 1 then getAt arr idx.num else 0

/-- Number of iterations of the JS loop for (k = 0; k < q; k++). -/
def jsLoopCount (q : ℚ) : Nat :=
  if q ≤ 0 then 0 else (Int.ceil q).toNat

/-- The _off_ accessor of createContext (first iteration, lines 234-239):
value of the series offset steps before index i, 0 outside bounds. -/
def offFn (arr : List ℚ) (i : Int) (offset : ℚ) : ℚ :=
  getAtQ arr ((i : ℚ) - offset)

/-- Core of the _sma_ context function (first iteration, lines 242-275)
once the input has been resolved to an array: collects exactly
Number(length) values at indices i - offset - k, reading 0 outside the
array, and divides by the number of collected values. -/
def smaFn (arr : List ℚ) (i : Int) (length : ℚ) (offset : ℚ) : ℚ :=
  let vals := (List.range (jsLoopCount length)).map
    (fun (k : ℕ) => getAtQ arr ((i : ℚ) - offset - (k : ℚ)))
  if vals.length = 0 then 0 else vals.sum / (vals.length : ℚ)

/-- Math.max over a nonempty collected list, 0 when empty (the ternary
in the source). -/
def listMax : List ℚ → ℚ
  | [] => 0
  | x :: xs => xs.foldl max x

/-- Math.min over a nonempty collected list, 0 when empty. -/
def listMin : List ℚ → ℚ
  | [] => 0
  | x :: xs => xs.foldl min x

/-- Core of the _highest_ context function (first iteration, lines
278-304) on an array input. -/
def highestFn (arr : List ℚ) (i : Int) (length : ℚ) : ℚ :=
  let vals := (List.range (jsLoopCount length)).map
    (fun (k : ℕ) => getAtQ arr ((i : ℚ) - (k : ℚ)))
  listMax vals

/-- Core of the _lowest_ context function (first iteration, lines
307-333) on an array input. -/
def lowestFn (arr : List ℚ) (i : Int) (length : ℚ) : ℚ :=
  let vals := (List.range (jsLoopCount length)).map
    (fun (k : ℕ) => getAtQ arr ((i : ℚ) - (k : ℚ)))
  listMin vals

/-- The values collected by applyAggregation (NO LIMITATIONS iteration,
lines 309-341) at output index i: input values at indices i - k for
k < len, skipping indices outside the input array. -/
def applyAggVals (inputSeries : List ℚ) (len : Nat) (i : Nat) : List ℚ :=
  (List.range len).filterMap (fun k =>
    if k ≤ i ∧ i - k < inputSeries.length then some (inputSeries.getD (i - k) 0)
    else none)

/-- applyAggregation (NO LIMITATIONS iteration, lines 309-341): applies
one window function over every output index; the length parameter is
floored and clamped to at least 1. -/
def applyAggregation (funcName : String) (inputSeries : List ℚ)
    (length : ℚ) (numCandles : Nat) : List ℚ :=
  let len : Nat := max 1 (Int.floor length).toNat
  (List.range numCandles).map (fun i =>
    let vals := applyAggVals inputSeries len i
    if vals.length = 0 then 0
    else if funcName = "_sma_" then vals.sum / (vals.length : ℚ)
    else if funcName = "_highest_" then listMax vals
    else if funcName = "_lowest_" then listMin vals
    else 0)

/-! Spec-side window definitions, written from the specification text:
the trailing window of length L at index i covers the indices
max(0, i-L+1) .. i only (clipped at the series start), and the moving
average is the mean over exactly those values; highest and lowest are
max and min over the same window. -/

/-- The indices max(0, i-L+1) .. i, ascending. -/
def trailingIdx (L i : Nat) : List Nat :=
  List.range' (i + 1 - L) (min L (i + 1))

/-- The trailing window values of s at index i for length L. -/
def trailingWindow (L : Nat) (s : List ℚ) (i : Nat) : List ℚ :=
  (trailingIdx L i).map (fun j => s.getD j 0)

/-- Spec-side moving average: the mean of the trailing window. -/
def trailingMean (L : Nat) (s : List ℚ) (i : Nat) : ℚ :=
  (trailingWindow L s i).sum / ((trailingWindow L s i).length : ℚ)

/-- Spec-side highest: the max over the trailing window (0 for an empty
window, which only happens on an empty series). -/
def trailingMax (L : Nat) (s : List ℚ) (i : Nat) : ℚ :=
  listMax (trailingWindow L s i)

/-- Spec-side bottom-up nested evaluation: materialize the inner moving
average over the full series, then window the materialized series. -/
def specSmaSeries (L : Nat) (s : List ℚ) : List ℚ :=
  (List.range s.length).map (fun i => trailingMean L s i)

/-! Threshold classifier (controllers/stage4Controller.js lines 258-275
and the identical copy in the unnamed controller iteration). -/

/-- A positional threshold pair; absent bounds are null in the source. -/
structure Threshold where
  tmin : Option ℚ
  tmax : Option ℚ
deriving Repr, DecidableEq

/-- The status computation in the body of the labelObjects map: the
exact cascade of the source, with hasMin/hasMax guarding every bound
access. -/
def labelStatus (v : Option ℚ) (thr : Threshold) : String :=
  match v with
  | none => "unknown"
  | some x =>
    let hasMin := thr.tmin.isSome
    let hasMax := thr.tmax.isSome
    if hasMin && decide (x < thr.tmin.getD 0) then "below"
    else if hasMax && decide (thr.tmax.getD 0 < x) then "above"
    else if hasMin || hasMax then "within"
    else "noFilter"

/-- One classified label object {value, min, max, status}. -/
structure LabelObj where
  value : Option ℚ
  lmin : Option ℚ
  lmax : Option ℚ
  status : String
deriving Repr, DecidableEq

/-- labelObjects: the first five labels classified against the
positionally paired thresholds (a missing pair acts as {min:null,
max:null}), padded to five slots with empty entries. -/
def labelObjects (labels : List (Option ℚ)) (thresholds : List Threshold) :
    List LabelObj :=
  let objs := (labels.take 5).mapIdx (fun j v =>
    let thr := thresholds.getD j ⟨none, none⟩
    LabelObj.mk v thr.tmin thr.tmax (labelStatus v thr))
  objs ++ List.replicate (5 - objs.length) (LabelObj.mk none none none "empty")

/-- Classification precedence exactly as the specification words it:
value missing yields unknown; both bounds absent yields noFilter; value
below a present min yields below; value above a present max yields
above; otherwise within. -/
def specClassify (v : Option ℚ) (thr : Threshold) : String :=
  match v with
  | none => "unknown"
  | some x =>
    match thr.tmin, thr.tmax with
    | none, none => "noFilter"
    | _, _ =>
      if (match thr.tmin with | some m => decide (x < m) | none => false) then "below"
      else if (match thr.tmax with | some M => decide (M < x) | none => false) then "above"
      else "within"

/-! Helper lemmas about the window functions. -/

lemma applyAggVals_eq_map (s : List ℚ) (i : Nat) (hi : i < s.length) :
    ∀ len, applyAggVals s len i
      = (List.range (min len (i + 1))).map (fun k => s.getD (i - k) 0) := by
  intro len
  induction len with
  | zero => simp [applyAggVals]
  | succ n ih =>
    rw [applyAggVals, List.range_succ, List.filterMap_append]
    rw [applyAggVals] at ih
    rw [ih]
    by_cases hn : n ≤ i
    · have h1 : min (n + 1) (i + 1) = min n (i + 1) + 1 := by
        rw [min_eq_left (by omega), min_eq_left (by omega)]
      rw [h1, List.range_succ, List.map_append]
      have h2 : min n (i + 1) = n := min_eq_left (by omega)
      simp [h2, hn, lt_of_le_of_lt (Nat.sub_le i n) hi]
    · have h1 : min (n + 1) (i + 1) = min n (i + 1) := by
        rw [min_eq_right (by omega), min_eq_right (by omega)]
      rw [h1]
      have : ¬ (n ≤ i ∧ i - n < s.length) := fun h => hn h.1
      simp [this]

lemma list_sum_range_map (f : Nat → ℚ) :
    ∀ n, ((List.range n).map f).sum = ∑ k ∈ Finset.range n, f k := by
  intro n
  induction n with
  | zero => simp
  | succ m ih => rw [List.range_succ, List.map_append, List.sum_append,
      Finset.sum_range_succ, ih]; simp

lemma sum_range_window (g : Nat → ℚ) (i m : Nat) (hm : m ≤ i + 1) :
    ∑ k ∈ Finset.range m, g (i - k) = ∑ k ∈ Finset.range m, g (i + 1 - m + k) := by
  rw [← Finset.sum_range_reflect]
  apply Finset.sum_congr rfl
  intro j hj
  have hj' : j < m := Finset.mem_range.mp hj
  congr 1
  omega

lemma trailingWindow_sum (L : Nat) (s : List ℚ) (i : Nat) :
    (trailingWindow L s i).sum
      = ∑ k ∈ Finset.range (min L (i + 1)), s.getD (i + 1 - min L (i + 1) + k) 0 := by
  rw [trailingWindow, trailingIdx]
  have key : ∀ m lo, ((List.range' lo m).map (fun j => s.getD j 0)).sum
      = ∑ k ∈ Finset.range m, s.getD (lo + k) 0 := by
    intro m
    induction m with
    | zero => simp
    | succ m ih =>
      intro lo
      rw [List.range'_succ, List.map_cons, List.sum_cons, ih (lo + 1),
        Finset.sum_range_succ']
      simp only [Nat.add_zero]
      rw [add_comm]
      congr 1
      apply Finset.sum_congr rfl
      intro j _
      congr 1
      omega
  rw [key]
  have hlo : i + 1 - L = i + 1 - min L (i + 1) := by
    rcases Nat.le_total L (i + 1) with h | h
    · rw [min_eq_left h]
    · rw [min_eq_right h]; omega
  rw [hlo]

lemma trailingWindow_length (L : Nat) (s : List ℚ) (i : Nat) :
    (trailingWindow L s i).length = min L (i + 1) := by
  simp [trailingWindow, trailingIdx]

/-- The clipped-window equality: at any in-range index, applyAggregation
with the moving-average marker produces exactly the spec-side trailing
mean. -/
lemma applyAgg_sma_eq_trailingMean (s : List ℚ) (L n i : Nat)
    (hL : 1 ≤ L) (hn : s.length = n) (hi : i < n) :
    (applyAggregation "_sma_" s (L : ℚ) n).getD i 0 = trailingMean L s i := by
  have hfloor : (Int.floor (L : ℚ)).toNat = L := by
    rw [Int.floor_natCast]; exact Int.toNat_natCast L
  have hmax : max 1 (Int.floor (L : ℚ)).toNat = L := by
    rw [hfloor]; omega
  have hi' : i < s.length := hn ▸ hi
  rw [applyAggregation]
  simp only [hmax]
  rw [List.getD_eq_getElem?_getD, List.getElem?_map, List.getElem?_range hi]
  simp only [Option.map_some', Option.getD_some]
  rw [applyAggVals_eq_map s i hi' L]
  set m := min L (i + 1) with hm
  have hm1 : 1 ≤ m := by
    have := Nat.le_min.mpr ⟨hL, Nat.succ_le_succ (Nat.zero_le i)⟩
    omega
  have hmle : m ≤ i + 1 := min_le_right _ _
  have hlen : ((List.range m).map (fun k => s.getD (i - k) 0)).length = m := by
    simp
  have hne : ¬ ((List.range m).map (fun k => s.getD (i - k) 0)).length = 0 := by
    omega
  simp only [hne, if_false, if_true]
  rw [trailingMean, trailingWindow_sum, trailingWindow_length, ← hm]
  rw [hlen, list_sum_range_map (fun k => s.getD (i - k) 0) m]
  rw [sum_range_window (fun j => s.getD j 0) i m hmle]

/-- At indices with a full history (i ≥ L - 1) the per-index _sma_
accessor also agrees with the trailing mean. -/
lemma smaFn_full_history (s : List ℚ) (L i : Nat)
    (hL : 1 ≤ L) (hfull : L - 1 ≤ i) (hi : i < s.length) :
    smaFn s (i : Int) (L : ℚ) 0 = trailingMean L s i := by
  have hcount : jsLoopCount (L : ℚ) = L := by
    rw [jsLoopCount]
    have hpos : ¬ ((L : ℚ) ≤ 0) := by
      push_neg
      exact_mod_cast Nat.lt_of_lt_of_le Nat.zero_lt_one hL
    rw [if_neg hpos, Int.ceil_natCast]
    exact Int.toNat_natCast L
  have hgets : ∀ k, k < L → getAtQ s (((i : Int) : ℚ) - 0 - (k : ℚ)) = s.getD (i - k) 0 := by
    intro k hk
    have hki : k ≤ i := by omega
    have harg : ((i : Int) : ℚ) - 0 - (k : ℚ) = ((i - k : Nat) : ℚ) := by
      push_cast [Nat.cast_sub hki]
      ring
    rw [harg, getAtQ]
    rw [if_pos (Rat.den_natCast _)]
    rw [Rat.num_natCast, getAt]
    have h0 : ¬ (((i - k : Nat) : Int) < 0) := not_lt.mpr (Int.natCast_nonneg _)
    have hlt : i - k < s.length := lt_of_le_of_lt (Nat.sub_le i k) hi
    have h2 : ¬ ((s.length : Int) ≤ ((i - k : Nat) : Int)) := by
      exact_mod_cast not_le.mpr hlt
    rw [if_neg h0, if_neg h2, Int.toNat_natCast]
  have hmapeq : (List.range (jsLoopCount (L : ℚ))).map
      (fun (k : ℕ) => getAtQ s (((i : Int) : ℚ) - 0 - (k : ℚ)))
      = (List.range L).map (fun k => s.getD (i - k) 0) := by
    rw [hcount]
    apply List.map_congr_left
    intro k hk
    exact hgets k (List.mem_range.mp hk)
  have hm : min L (i + 1) = L := min_eq_left (by omega)
  have hlen : ((List.range L).map (fun k => s.getD (i - k) 0)).length = L := by simp
  have hne : ¬ ((List.range L).map (fun k => s.getD (i - k) 0)).length = 0 := by omega
  simp only [smaFn, hmapeq]
  rw [if_neg hne]
  rw [trailingMean, trailingWindow_sum, trailingWindow_length, hm, hlen]
  rw [list_sum_range_map (fun k => s.getD (i - k) 0) L]
  rw [sum_range_window (fun j => s.getD j 0) i L (by omega)]

/-! String machinery.  Each definition mirrors one of the regex passes
of the source.  Scanning works over character lists; a fuel argument
equal to the input length bounds scans whose advance is not one
character per step, exactly as the JS regex engine advances lastIndex
past each match. -/

def strL (s : String) : List Char := s.data

def lstr (l : List Char) : String := String.mk l

/-- The JS regex word-character class \w = [A-Za-z0-9_]. -/
def isWordChar (c : Char) : Bool :=
  (('a' ≤ c ∧ c ≤ 'z') : Bool) || (('A' ≤ c ∧ c ≤ 'Z') : Bool)
    || (('0' ≤ c ∧ c ≤ '9') : Bool) || c = '_'

def isAsciiLetter (c : Char) : Bool :=
  (('a' ≤ c ∧ c ≤ 'z') : Bool) || (('A' ≤ c ∧ c ≤ 'Z') : Bool)

def isDigitCh (c : Char) : Bool := ('0' ≤ c ∧ c ≤ '9' : Bool)

def ciEq (a b : Char) : Bool := a.toLower = b.toLower

/-- Case-insensitive literal prefix match, returning the remainder. -/
def stripPrefCI : List Char → List Char → Option (List Char)
  | [], s => some s
  | _ :: _, [] => none
  | p :: ps, c :: cs => if ciEq p c then stripPrefCI ps cs else none

/-- Case-sensitive literal prefix match, returning the remainder. -/
def stripPrefCS : List Char → List Char → Option (List Char)
  | [], s => some s
  | _ :: _, [] => none
  | p :: ps, c :: cs => if p = c then stripPrefCS ps cs else none

/-- Consume leading regex whitespace, returning count and remainder. -/
def dropWsCount : List Char → Nat × List Char
  | [] => (0, [])
  | c :: cs =>
    if c.isWhitespace then
      let r := dropWsCount cs
      (r.1 + 1, r.2)
    else (0, c :: cs)

/-- JS String.prototype.trim. -/
def jsTrim (s : List Char) : List Char :=
  ((s.dropWhile Char.isWhitespace).reverse.dropWhile Char.isWhitespace).reverse

/-- One pass of NAME\s*( replaced by MARKER( , case-insensitively and
without word boundaries, exactly like s.replace(/NAME\s*\(/gi, MARKER(). -/
def replaceCallCIAux (name marker : List Char) : Nat → List Char → List Char
  | 0, s => s
  | _ + 1, [] => []
  | fuel + 1, c :: cs =>
    match stripPrefCI name (c :: cs) with
    | some rest =>
      match (rest.dropWhile Char.isWhitespace) with
      | '(' :: rest3 => marker ++ '(' :: replaceCallCIAux name marker fuel rest3
      | _ => c :: replaceCallCIAux name marker fuel cs
    | none => c :: replaceCallCIAux name marker fuel cs

def replaceCallCI (name marker : String) (s : List Char) : List Char :=
  replaceCallCIAux (strL name) (strL marker) (s.length + 1) s

/-- Does s contain name as a whole word (both sides non-word), the test
of new RegExp(backslash-b name backslash-b). -/
def containsWordAux (name : List Char) : Option Char → List Char → Bool
  | _, [] => false
  | prev, c :: cs =>
    let boundaryL := match prev with
      | none => true
      | some p => !(isWordChar p)
    (boundaryL &&
      (match stripPrefCS name (c :: cs) with
       | some rest =>
         match rest with
         | [] => true
         | r :: _ => !(isWordChar r)
       | none => false))
    || containsWordAux name (some c) cs

def containsWordCS (name : String) (s : List Char) : Bool :=
  match strL name with
  | [] => false
  | nm => containsWordAux nm none s

/-- Global whole-word replacement, case-sensitive:
s.replace(new RegExp(backslash-b name backslash-b, g), repl). -/
def replaceWordAllCSAux (name repl : List Char) (lastNm : Char) :
    Nat → Option Char → List Char → List Char
  | 0, _, s => s
  | _ + 1, _, [] => []
  | fuel + 1, prev, c :: cs =>
    let boundaryL := match prev with
      | none => true
      | some p => !(isWordChar p)
    if boundaryL then
      match stripPrefCS name (c :: cs) with
      | some rest =>
        let boundaryR := match rest with
          | [] => true
          | r :: _ => !(isWordChar r)
        if boundaryR then
          repl ++ replaceWordAllCSAux name repl lastNm fuel (some lastNm) rest
        else c :: replaceWordAllCSAux name repl lastNm fuel (some c) cs
      | none => c :: replaceWordAllCSAux name repl lastNm fuel (some c) cs
    else c :: replaceWordAllCSAux name repl lastNm fuel (some c) cs

def replaceWordAllCS (name repl : String) (s : List Char) : List Char :=
  match strL name with
  | [] => s
  | n0 :: nrest =>
    replaceWordAllCSAux (n0 :: nrest) (strL repl)
      ((n0 :: nrest).getLast (by simp)) (s.length + 1) none s

/-- Global whole-word replacement, case-insensitive (the and/or
conversion). -/
def replaceWordAllCIAux (name repl : List Char) (lastNm : Char) :
    Nat → Option Char → List Char → List Char
  | 0, _, s => s
  | _ + 1, _, [] => []
  | fuel + 1, prev, c :: cs =>
    let boundaryL := match prev with
      | none => true
      | some p => !(isWordChar p)
    if boundaryL then
      match stripPrefCI name (c :: cs) with
      | some rest =>
        let boundaryR := match rest with
          | [] => true
          | r :: _ => !(isWordChar r)
        if boundaryR then
          repl ++ replaceWordAllCIAux name repl lastNm fuel (some lastNm) rest
        else c :: replaceWordAllCIAux name repl lastNm fuel (some c) cs
      | none => c :: replaceWordAllCIAux name repl lastNm fuel (some c) cs
    else c :: replaceWordAllCIAux name repl lastNm fuel (some c) cs

def replaceWordAllCI (name repl : String) (s : List Char) : List Char :=
  match strL name with
  | [] => s
  | n0 :: nrest =>
    replaceWordAllCIAux (n0 :: nrest) (strL repl)
      ((n0 :: nrest).getLast (by simp)) (s.length + 1) none s

/-- Remove // comments up to (not including) the line end. -/
def stripLineCommentsAux : Nat → List Char → List Char
  | 0, s => s
  | _ + 1, [] => []
  | fuel + 1, '/' :: '/' :: cs =>
    stripLineCommentsAux fuel (cs.dropWhile (fun c => c ≠ '\n'))
  | fuel + 1, c :: cs => c :: stripLineCommentsAux fuel cs

def stripLineComments (s : List Char) : List Char :=
  stripLineCommentsAux (s.length + 1) s

/-- Position just after the next block-comment closer. -/
def afterBlockClose : Nat → List Char → Option (List Char)
  | 0, _ => none
  | _ + 1, [] => none
  | _ + 1, ['*'] => none
  | fuel + 1, '*' :: '/' :: cs => some cs
  | fuel + 1, _ :: cs => afterBlockClose fuel cs

/-- Remove well-formed block comments; an unterminated opener stays. -/
def stripBlockCommentsAux : Nat → List Char → List Char
  | 0, s => s
  | _ + 1, [] => []
  | fuel + 1, '/' :: '*' :: cs =>
    (match afterBlockClose (cs.length + 1) cs with
     | some rest => stripBlockCommentsAux fuel rest
     | none => '/' :: stripBlockCommentsAux fuel ('*' :: cs))
  | fuel + 1, c :: cs => c :: stripBlockCommentsAux fuel cs

def stripBlockComments (s : List Char) : List Char :=
  stripBlockCommentsAux (s.length + 1) s

/-- Replace CRLF pairs by LF. -/
def replaceCRLF : List Char → List Char
  | [] => []
  | '\r' :: '\n' :: cs => '\n' :: replaceCRLF cs
  | c :: cs => c :: replaceCRLF cs

/-- Replace tabs by spaces (first iteration of the parser only). -/
def tabsToSpaces (s : List Char) : List Char :=
  s.map (fun c => if c = '\t' then ' ' else c)

/-- One declaration scan: KEYWORD\s+([A-Za-z0-9_]+)\s*=\s*([^;]+); with
the gi flags, collecting (name, raw body) pairs in match order; the
keyword is matched without a word boundary, as in the source. -/
def matchDecl (kw : List Char) (s : List Char) :
    Option (String × String × List Char) := do
  let rest1 ← stripPrefCI kw s
  match rest1 with
  | [] => none
  | c :: _ =>
    if !c.isWhitespace then none
    else
      let rest2 := rest1.dropWhile Char.isWhitespace
      let nm := rest2.takeWhile isWordChar
      if nm.isEmpty then none
      else
        let rest3 := (rest2.drop nm.length).dropWhile Char.isWhitespace
        match rest3 with
        | '=' :: rest4 =>
          let rest5 := rest4.dropWhile Char.isWhitespace
          let body := rest5.takeWhile (fun c => c ≠ ';')
          if body.isEmpty then none
          else
            match rest5.drop body.length with
            | ';' :: rest6 => some (lstr nm, lstr body, rest6)
            | _ => none
        | _ => none

def scanDeclsAux (kw : List Char) : Nat → List Char → List (String × String)
  | 0, _ => []
  | _ + 1, [] => []
  | fuel + 1, c :: cs =>
    match matchDecl kw (c :: cs) with
    | some (nm, body, rest) => (nm, body) :: scanDeclsAux kw fuel rest
    | none => scanDeclsAux kw fuel cs

def scanDecls (kw : String) (s : List Char) : List (String × String) :=
  scanDeclsAux (strL kw) (s.length + 1) s

/-- Association-list primitives modelling plain JS objects: lookup by
key, and insertion that overwrites an existing key in place (property
assignment). -/
def alookup (m : List (String × String)) (k : String) : Option String :=
  match m.find? (fun p => p.1 = k) with
  | some p => some p.2
  | none => none

def aset (m : List (String × String)) (k v : String) : List (String × String) :=
  match m with
  | [] => [(k, v)]
  | (k0, v0) :: rest =>
    if k0 = k then (k0, v) :: rest else (k0, v0) :: aset rest k v

def qlookup (m : List (String × List ℚ)) (k : String) : Option (List ℚ) :=
  match m.find? (fun p => p.1 = k) with
  | some p => some p.2
  | none => none

def qset (m : List (String × List ℚ)) (k : String) (v : List ℚ) :
    List (String × List ℚ) :=
  match m with
  | [] => [(k, v)]
  | (k0, v0) :: rest =>
    if k0 = k then (k0, v) :: rest else (k0, v0) :: qset rest k v

/-- Try the twelve base-series names, in the order the alternation of
the offset regex lists them, case-insensitively; none is a prefix of
another. -/
def matchBaseName (s : List Char) : Option (String × List Char) :=
  let rec tryNames : List String → Option (String × List Char)
    | [] => none
    | n :: ns =>
      match stripPrefCI (strL n) s with
      | some rest => some (n, rest)
      | none => tryNames ns
  tryNames baseSeriesNames

/-- SERIES\s*[\s*N\s*] with a left word boundary rewritten to
_off_("series", N): the offset regex of both normalizers. -/
def replaceOffsetsAux : Nat → Option Char → List Char → List Char
  | 0, _, s => s
  | _ + 1, _, [] => []
  | fuel + 1, prev, c :: cs =>
    let boundaryL := match prev with
      | none => true
      | some p => !(isWordChar p)
    let noMatch : List Char := c :: replaceOffsetsAux fuel (some c) cs
    if boundaryL then
      match matchBaseName (c :: cs) with
      | some (nm, rest1) =>
        let rest2 := rest1.dropWhile Char.isWhitespace
        (match rest2 with
         | '[' :: rest3 =>
           let rest4 := rest3.dropWhile Char.isWhitespace
           let digits := rest4.takeWhile isDigitCh
           if digits.isEmpty then noMatch
           else
             let rest5 := (rest4.drop digits.length).dropWhile Char.isWhitespace
             (match rest5 with
              | ']' :: rest6 =>
                strL ("_off_(\x22" ++ nm ++ "\x22, ") ++ digits ++ ')'
                  :: replaceOffsetsAux fuel (some ']') rest6
              | _ => noMatch)
         | _ => noMatch)
      | none => noMatch
    else noMatch

def replaceOffsets (s : List Char) : List Char :=
  replaceOffsetsAux (s.length + 1) none s

/-- MARKER(\s*([a-z]+)\s*, rewritten to MARKER("name", when the name is
a base-series name (lower-cased), left unchanged otherwise: the
argument-quoting passes of the first-iteration normalizer. -/
def quoteCallArgAux (marker : List Char) : Nat → List Char → List Char
  | 0, s => s
  | _ + 1, [] => []
  | fuel + 1, c :: cs =>
    let noMatch : List Char := c :: quoteCallArgAux marker fuel cs
    match stripPrefCI (marker ++ ['(']) (c :: cs) with
    | some rest1 =>
      let ws1 := rest1.takeWhile Char.isWhitespace
      let rest2 := rest1.dropWhile Char.isWhitespace
      let nm := rest2.takeWhile isAsciiLetter
      if nm.isEmpty then noMatch
      else
        let ws2 := (rest2.drop nm.length).takeWhile Char.isWhitespace
        let rest3 := (rest2.drop nm.length).dropWhile Char.isWhitespace
        (match rest3 with
         | ',' :: rest4 =>
           if baseSeriesNames.contains (lstr (nm.map Char.toLower)) then
             marker ++ strL "(\x22" ++ nm.map Char.toLower ++ strL "\x22, "
               ++ quoteCallArgAux marker fuel rest4
           else
             marker ++ '(' :: (ws1 ++ nm ++ ws2 ++ ',' :: quoteCallArgAux marker fuel rest4)
         | _ => noMatch)
    | none => noMatch

def quoteCallArg (marker : String) (s : List Char) : List Char :=
  quoteCallArgAux (strL marker) (s.length + 1) s

/-- NAME([^)]*) removed, case-insensitively: the styling strippers. -/
def stripCallCIAux (pat : List Char) : Nat → List Char → List Char
  | 0, s => s
  | _ + 1, [] => []
  | fuel + 1, c :: cs =>
    let noMatch : List Char := c :: stripCallCIAux pat fuel cs
    match stripPrefCI (pat ++ ['(']) (c :: cs) with
    | some rest1 =>
      let inside := rest1.takeWhile (fun ch => ch ≠ ')')
      (match rest1.drop inside.length with
       | ')' :: rest2 => stripCallCIAux pat fuel rest2
       | _ => noMatch)
    | none => noMatch

def stripCallCI (pat : String) (s : List Char) : List Char :=
  stripCallCIAux (strL pat) (s.length + 1) s

/-- declare\s+[^;]*; removed, case-insensitively (first iteration and
NO LIMITATIONS iteration). -/
def stripDeclareAux : Nat → List Char → List Char
  | 0, s => s
  | _ + 1, [] => []
  | fuel + 1, c :: cs =>
    let noMatch : List Char := c :: stripDeclareAux fuel cs
    match stripPrefCI (strL "declare") (c :: cs) with
    | some rest1 =>
      (match rest1 with
       | r :: _ =>
         if r.isWhitespace then
           let rest2 := rest1.dropWhile Char.isWhitespace
           let body := rest2.takeWhile (fun ch => ch ≠ ';')
           (match rest2.drop body.length with
            | ';' :: rest3 => stripDeclareAux fuel rest3
            | _ => noMatch)
         else noMatch
       | [] => noMatch)
    | none => noMatch

def stripDeclare (s : List Char) : List Char :=
  stripDeclareAux (s.length + 1) s

/-- First-occurrence literal replacement: str.replace(searchString,
replacement) with a plain-string search. -/
def replaceFirstAux (pat repl : List Char) : Nat → List Char → List Char
  | 0, s => s
  | _ + 1, [] => []
  | fuel + 1, c :: cs =>
    match stripPrefCS pat (c :: cs) with
    | some rest => repl ++ rest
    | none => c :: replaceFirstAux pat repl fuel cs

def replaceFirst (s pat repl : String) : String :=
  match strL pat with
  | [] => repl ++ s
  | p0 :: ps => lstr (replaceFirstAux (p0 :: ps) (strL repl) ((strL s).length + 1) (strL s))

/-- parseArguments (NO LIMITATIONS iteration, lines 76-103): split at
top-level commas with bracket-depth tracking, trimming each piece; an
empty final piece is dropped, empty inner pieces are kept. -/
def parseArgumentsAux : Int → List Char → List Char → List String → List String
  | _, current, [], acc =>
    let piece := jsTrim current.reverse
    if piece.isEmpty then acc.reverse
    else (lstr piece :: acc).reverse
  | depth, current, c :: cs, acc =>
    if c = '(' ∨ c = '[' then
      parseArgumentsAux (depth + 1) (c :: current) cs acc
    else if c = ')' ∨ c = ']' then
      parseArgumentsAux (depth - 1) (c :: current) cs acc
    else if c = ',' ∧ depth = 0 then
      parseArgumentsAux depth [] cs (lstr (jsTrim current.reverse) :: acc)
    else
      parseArgumentsAux depth (c :: current) cs acc

def parseArguments (argsStr : String) : List String :=
  parseArgumentsAux 0 [] (strL argsStr) []

/-- One located window-function call site. -/
structure AggCall where
  funcName : String
  startPos : Nat
  endPos : Nat
  fullCall : String
  argsStr : String
deriving Repr, DecidableEq

/-- The three window markers in the alternation order of the call-site
regex. -/
def aggMarkers : List String := ["_sma_", "_highest_", "_lowest_"]

def tryAggMarker (s : List Char) : Option (String × List Char) :=
  let rec go : List String → Option (String × List Char)
    | [] => none
    | m :: ms =>
      match stripPrefCS (strL m) s with
      | some rest => some (m, rest)
      | none => go ms
  go aggMarkers

/-- Length of the balanced-paren span starting at depth (counting only
parentheses, as the source does); none when the text ends first. -/
def balancedLen : Nat → List Char → Option Nat
  | _, [] => none
  | depth, c :: cs =>
    if c = ')' then
      if depth = 1 then some 1
      else match balancedLen (depth - 1) cs with
        | some n => some (n + 1)
        | none => none
    else if c = '(' then
      match balancedLen (depth + 1) cs with
      | some n => some (n + 1)
      | none => none
    else
      match balancedLen depth cs with
      | some n => some (n + 1)
      | none => none

/-- findAggregationCalls (NO LIMITATIONS iteration, lines 108-142):
locate every MARKER\s*( site, take the balanced argument span, and keep
scanning from just after the opening parenthesis (regex lastIndex). -/
def findAggAux : Nat → Nat → List Char → List AggCall
  | 0, _, _ => []
  | _ + 1, _, [] => []
  | fuel + 1, pos, c :: cs =>
    match tryAggMarker (c :: cs) with
    | some (m, rest1) =>
      let (wsn, rest2) := dropWsCount rest1
      (match rest2 with
       | '(' :: rest3 =>
         let header := (strL m).length + wsn + 1
         (match balancedLen 1 rest3 with
          | some blen =>
            { funcName := m, startPos := pos, endPos := pos + header + blen,
              fullCall := lstr ((c :: cs).take (header + blen)),
              argsStr := lstr (rest3.take (blen - 1)) }
              :: findAggAux fuel (pos + header) rest3
          | none => findAggAux fuel (pos + header) rest3)
       | _ => findAggAux fuel (pos + 1) cs)
    | none => findAggAux fuel (pos + 1) cs

def findAggregationCalls (s : String) : List AggCall :=
  findAggAux ((strL s).length + 1) 0 (strL s)

/-- Descending sort by startPos: the rightmost-first processing order. -/
def insertDesc (c : AggCall) : List AggCall → List AggCall
  | [] => [c]
  | d :: ds =>
    if d.startPos ≤ c.startPos then c :: d :: ds else d :: insertDesc c ds

def sortByStartDesc (l : List AggCall) : List AggCall :=
  l.foldr insertDesc []

/-! Model of the mathjs dependency on the expression language the
engine feeds to it.  Values carry the JS dynamic types the engine
scope contains: numbers, strings, booleans and numeric arrays.
Evaluation is error-propagating: an unbound symbol or function raises,
and every raise is caught by the engine exactly where the source wraps
evaluate in try/catch. -/

inductive JVal where
  | num (q : ℚ)
  | vstr (s : String)
  | vbool (b : Bool)
  | varr (xs : List ℚ)
deriving Repr, DecidableEq

/-- Number(v): numbers unchanged, booleans 1/0, strings and arrays NaN
(none).  Numeric strings never reach this coercion in the engine. -/
def jsNumber : JVal → Option ℚ
  | .num q => some q
  | .vbool b => some (if b then 1 else 0)
  | _ => none

/-- The per-index coercion values.push(isFinite(num) ? num : 0). -/
def coerceNum (v : JVal) : ℚ :=
  (jsNumber v).getD 0

inductive Tok where
  | tnum (q : ℚ)
  | tid (s : String)
  | tstr (s : String)
  | lpar
  | rpar
  | comma
  | plus
  | minus
  | star
  | slash
deriving Repr, DecidableEq

def digitsToNat (ds : List Char) : Nat :=
  ds.foldl (fun acc c => acc * 10 + (c.toNat - '0'.toNat)) 0

/-- Tokenizer for the mathjs subset; an unrecognized character makes
the whole parse fail, as math.parse throws. -/
def tokenizeAux : Nat → List Char → Option (List Tok)
  | 0, _ => none
  | _ + 1, [] => some []
  | fuel + 1, c :: cs =>
    if c.isWhitespace then tokenizeAux fuel cs
    else if isDigitCh c then
      let ds := (c :: cs).takeWhile isDigitCh
      let rest := (c :: cs).dropWhile isDigitCh
      match rest with
      | '.' :: r2 =>
        let fs := r2.takeWhile isDigitCh
        if fs.isEmpty then none
        else
          let rest2 := r2.dropWhile isDigitCh
          let q : ℚ := (digitsToNat ds : ℚ) + (digitsToNat fs : ℚ) / ((10 : ℚ) ^ fs.length)
          (tokenizeAux fuel rest2).map (fun ts => Tok.tnum q :: ts)
      | _ =>
        (tokenizeAux fuel rest).map (fun ts => Tok.tnum (digitsToNat ds : ℚ) :: ts)
    else if isWordChar c then
      let nm := (c :: cs).takeWhile isWordChar
      let rest := (c :: cs).dropWhile isWordChar
      (tokenizeAux fuel rest).map (fun ts => Tok.tid (lstr nm) :: ts)
    else if c = '\x22' then
      let body := cs.takeWhile (fun ch => ch ≠ '\x22')
      match cs.drop body.length with
      | '\x22' :: rest => (tokenizeAux fuel rest).map (fun ts => Tok.tstr (lstr body) :: ts)
      | _ => none
    else if c = '(' then (tokenizeAux fuel cs).map (Tok.lpar :: ·)
    else if c = ')' then (tokenizeAux fuel cs).map (Tok.rpar :: ·)
    else if c = ',' then (tokenizeAux fuel cs).map (Tok.comma :: ·)
    else if c = '+' then (tokenizeAux fuel cs).map (Tok.plus :: ·)
    else if c = '-' then (tokenizeAux fuel cs).map (Tok.minus :: ·)
    else if c = '*' then (tokenizeAux fuel cs).map (Tok.star :: ·)
    else if c = '/' then (tokenizeAux fuel cs).map (Tok.slash :: ·)
    else none

def tokenize (s : String) : Option (List Tok) :=
  tokenizeAux ((strL s).length + 1) (strL s)

/-- Expression AST of the mathjs subset.  Calls carry up to three
arguments, the maximal arity of the functions the engine injects; a
call with more arguments fails to parse in the model (none occurs). -/
inductive MExpr where
  | num (q : ℚ)
  | mstr (s : String)
  | sym (name : String)
  | call0 (f : String)
  | call1 (f : String) (a : MExpr)
  | call2 (f : String) (a b : MExpr)
  | call3 (f : String) (a b c : MExpr)
  | add (a b : MExpr)
  | sub (a b : MExpr)
  | mul (a b : MExpr)
  | div (a b : MExpr)
  | neg (a : MExpr)
deriving Repr, DecidableEq

mutual

/-- expr := term (('+'|'-') term)* -/
def parseE : Nat → List Tok → Option (MExpr × List Tok)
  | 0, _ => none
  | fuel + 1, ts => do
    let (a, r) ← parseT fuel ts
    parseEC fuel a r

def parseEC : Nat → MExpr → List Tok → Option (MExpr × List Tok)
  | 0, _, _ => none
  | fuel + 1, a, Tok.plus :: r => do
    let (b, r2) ← parseT fuel r
    parseEC fuel (MExpr.add a b) r2
  | fuel + 1, a, Tok.minus :: r => do
    let (b, r2) ← parseT fuel r
    parseEC fuel (MExpr.sub a b) r2
  | _ + 1, a, ts => some (a, ts)

/-- term := factor (('*'|'/') factor)* -/
def parseT : Nat → List Tok → Option (MExpr × List Tok)
  | 0, _ => none
  | fuel + 1, ts => do
    let (a, r) ← parseF fuel ts
    parseTC fuel a r

def parseTC : Nat → MExpr → List Tok → Option (MExpr × List Tok)
  | 0, _, _ => none
  | fuel + 1, a, Tok.star :: r => do
    let (b, r2) ← parseF fuel r
    parseTC fuel (MExpr.mul a b) r2
  | fuel + 1, a, Tok.slash :: r => do
    let (b, r2) ← parseF fuel r
    parseTC fuel (MExpr.div a b) r2
  | _ + 1, a, ts => some (a, ts)

/-- factor := '-' factor | primary -/
def parseF : Nat → List Tok → Option (MExpr × List Tok)
  | 0, _ => none
  | fuel + 1, Tok.minus :: r => do
    let (a, r2) ← parseF fuel r
    some (MExpr.neg a, r2)
  | fuel + 1, ts => parseP fuel ts

/-- primary := number | string | ident | ident '(' args ')' | '(' expr ')' -/
def parseP : Nat → List Tok → Option (MExpr × List Tok)
  | 0, _ => none
  | _ + 1, Tok.tnum q :: r => some (MExpr.num q, r)
  | _ + 1, Tok.tstr s :: r => some (MExpr.mstr s, r)
  | fuel + 1, Tok.tid f :: Tok.lpar :: Tok.rpar :: r => some (MExpr.call0 f, r)
  | fuel + 1, Tok.tid f :: Tok.lpar :: r => do
    let (args, r2) ← parseArgsT fuel r
    match r2 with
    | Tok.rpar :: r3 =>
      match args with
      | [a] => some (MExpr.call1 f a, r3)
      | [a, b] => some (MExpr.call2 f a b, r3)
      | [a, b, c] => some (MExpr.call3 f a b c, r3)
      | _ => none
    | _ => none
  | _ + 1, Tok.tid s :: r => some (MExpr.sym s, r)
  | fuel + 1, Tok.lpar :: r => do
    let (a, r2) ← parseE fuel r
    match r2 with
    | Tok.rpar :: r3 => some (a, r3)
    | _ => none
  | _ + 1, _ => none

def parseArgsT : Nat → List Tok → Option (List MExpr × List Tok)
  | 0, _ => none
  | fuel + 1, ts => do
    let (a, r) ← parseE fuel ts
    match r with
    | Tok.comma :: r2 => do
      let (rest, r3) ← parseArgsT fuel r2
      some (a :: rest, r3)
    | _ => some ([a], r)

end

/-- math.parse: tokenize then parse a full expression with nothing
left over. -/
def mparse (s : String) : Option MExpr := do
  let ts ← tokenize s
  let (a, r) ← parseE (ts.length * 2 + 8) ts
  match r with
  | [] => some a
  | _ => none

/-- An evaluation scope: the value bindings and function bindings the
engine installs on the context object.  Lookup takes the first match;
scopes are constructed so that later JS property assignments appear
earlier in the list. -/
structure Scope where
  vars : List (String × JVal)
  fns : List (String × (List JVal → Except String JVal))

def lookupVar (sc : Scope) (n : String) : Option JVal :=
  match sc.vars.find? (fun p => p.1 = n) with
  | some p => some p.2
  | none => none

def lookupFn (sc : Scope) (n : String) :
    Option (List JVal → Except String JVal) :=
  match sc.fns.find? (fun p => p.1 = n) with
  | some p => some p.2
  | none => none

/-- Arithmetic on two scope values: mathjs arithmetic on anything but
two numbers raises in the model. -/
def numBin (f : ℚ → ℚ → ℚ) : JVal → JVal → Except String JVal
  | .num a, .num b => .ok (.num (f a b))
  | _, _ => .error "TypeError"

def mevalCall (sc : Scope) (f : String) (args : List JVal) :
    Except String JVal :=
  match lookupFn sc f with
  | some fn => fn args
  | none => .error ("Undefined function " ++ f)

/-- Evaluation of one parsed node against a scope. -/
def meval : MExpr → Scope → Except String JVal
  | .num q, _ => .ok (.num q)
  | .mstr s, _ => .ok (.vstr s)
  | .sym n, sc =>
    (match lookupVar sc n with
     | some v => .ok v
     | none => .error ("Undefined symbol " ++ n))
  | .call0 f, sc => mevalCall sc f []
  | .call1 f a, sc => do
    let va ← meval a sc
    mevalCall sc f [va]
  | .call2 f a b, sc => do
    let va ← meval a sc
    let vb ← meval b sc
    mevalCall sc f [va, vb]
  | .call3 f a b c, sc => do
    let va ← meval a sc
    let vb ← meval b sc
    let vc ← meval c sc
    mevalCall sc f [va, vb, vc]
  | .add a b, sc => do
    let va ← meval a sc
    let vb ← meval b sc
    numBin (· + ·) va vb
  | .sub a b, sc => do
    let va ← meval a sc
    let vb ← meval b sc
    numBin (· - ·) va vb
  | .mul a b, sc => do
    let va ← meval a sc
    let vb ← meval b sc
    numBin (· * ·) va vb
  | .div a b, sc => do
    let va ← meval a sc
    let vb ← meval b sc
    (match va, vb with
     | .num _, .num d =>
       if d = 0 then .error "nonfinite" else numBin (· / ·) va vb
     | _, _ => .error "TypeError")
  | .neg a, sc => do
    let va ← meval a sc
    (match va with
     | .num q => .ok (.num (-q))
     | _ => .error "TypeError")

/-! The scalar math functions both engine iterations install on the
scope.  Irrational-valued functions (log, sqrt, and pow outside integer
exponents) have no rational model; they raise a model-only error, and no
formula under verification reaches them. -/

def jsRound (q : ℚ) : ℚ := (Int.floor (q + 1/2) : ℚ)

def fnAbs : List JVal → Except String JVal
  | [.num q] => .ok (.num |q|)
  | .num q :: _ => .ok (.num |q|)
  | _ => .error "TypeError"

def fnFloor : List JVal → Except String JVal
  | [.num q] => .ok (.num (Int.floor q : ℚ))
  | .num q :: _ => .ok (.num (Int.floor q : ℚ))
  | _ => .error "TypeError"

def fnCeil : List JVal → Except String JVal
  | [.num q] => .ok (.num (Int.ceil q : ℚ))
  | .num q :: _ => .ok (.num (Int.ceil q : ℚ))
  | _ => .error "TypeError"

def fnRound : List JVal → Except String JVal
  | [.num q] => .ok (.num (jsRound q))
  | .num q :: _ => .ok (.num (jsRound q))
  | _ => .error "TypeError"

def allNums : List JVal → Option (List ℚ)
  | [] => some []
  | .num q :: rest => (allNums rest).map (q :: ·)
  | _ => none

def fnMin : List JVal → Except String JVal
  | args =>
    match allNums args with
    | some (q :: qs) => .ok (.num (listMin (q :: qs)))
    | some [] => .error "nonfinite"
    | none => .error "TypeError"

def fnMax : List JVal → Except String JVal
  | args =>
    match allNums args with
    | some (q :: qs) => .ok (.num (listMax (q :: qs)))
    | some [] => .error "nonfinite"
    | none => .error "TypeError"

def fnPow : List JVal → Except String JVal
  | [.num a, .num b] =>
    if b.den = 1 then
      if 0 ≤ b.num then .ok (.num (a ^ b.num.toNat))
      else if a = 0 then .error "nonfinite"
      else .ok (.num ((a ^ (-b.num).toNat)⁻¹))
    else .error "irrational"
  | _ => .error "TypeError"

def fnIrrational : List JVal → Except String JVal
  | _ => .error "irrational"

/-- The scalar-function bindings shared by every scope constructor:
abs, min, max, log, sqrt, pow, and for the first iteration also floor,
ceil, round. -/
def mathFns : List (String × (List JVal → Except String JVal)) :=
  [("abs", fnAbs), ("min", fnMin), ("max", fnMax),
   ("log", fnIrrational), ("sqrt", fnIrrational), ("pow", fnPow),
   ("floor", fnFloor), ("ceil", fnCeil), ("round", fnRound)]

/-! First engine iteration (stage4Engine.js lines 1-561). -/

/-- The def-expansion passes of normalizeFormula (lines 110-121): each
pass replaces every whole-word def reference by its parenthesized
expression; at most twenty passes run. -/
def expandDefsOnce (defs : List (String × String)) (s : List Char) :
    List Char × Bool :=
  defs.foldl (fun (acc : List Char × Bool) d =>
    if containsWordCS d.1 acc.1 then
      (replaceWordAllCS d.1 ("(" ++ d.2 ++ ")") acc.1, true)
    else acc) (s, false)

def expandDefsLoop : Nat → List (String × String) → List Char → List Char
  | 0, _, s => s
  | fuel + 1, defs, s =>
    let r := expandDefsOnce defs s
    if r.2 then expandDefsLoop fuel defs r.1 else r.1

/-- normalizeFormula of the first iteration (lines 81-166): function
renames, offset rewriting, def inlining, base-name quoting inside the
window markers, style stripping, series-name case canonicalization,
trim. -/
def normalizeFormulaV1 (raw : String) (allDefs : List (String × String)) :
    String :=
  if raw = "" then ""
  else
    let s := strL raw
    let s := replaceCallCI "SimpleMovingAvg" "_sma_" s
    let s := replaceCallCI "simplemovingavg" "_sma_" s
    let s := replaceCallCI "Average" "_sma_" s
    let s := replaceCallCI "Highest" "_highest_" s
    let s := replaceCallCI "highest" "_highest_" s
    let s := replaceCallCI "Lowest" "_lowest_" s
    let s := replaceCallCI "lowest" "_lowest_" s
    let s := replaceCallCI "Max" "max" s
    let s := replaceCallCI "max" "max" s
    let s := replaceCallCI "Min" "min" s
    let s := replaceCallCI "min" "min" s
    let s := replaceOffsets s
    let s := expandDefsLoop 20 allDefs s
    let s := quoteCallArg "_sma_" s
    let s := quoteCallArg "_highest_" s
    let s := quoteCallArg "_lowest_" s
    let s := stripCallCI ".SetDefaultColor" s
    let s := stripCallCI ".SetPaintingStrategy" s
    let s := stripCallCI ".SetLineWeight" s
    let s := stripCallCI "SetDefaultColor" s
    let s := stripCallCI "SetPaintingStrategy" s
    let s := stripDeclare s
    let s := stripCallCI "AddLabel" s
    let s := replaceWordAllCS "Low" "low" s
    let s := replaceWordAllCS "High" "high" s
    let s := replaceWordAllCS "Open" "open" s
    let s := replaceWordAllCS "Close" "close" s
    let s := replaceWordAllCS "Volume" "volume" s
    lstr (jsTrim s)

/-- compileFormula of the first iteration: normalize then parse; a
parse failure yields null. -/
def compileFormulaV1 (str : String) (allDefs : List (String × String)) :
    Option MExpr :=
  let normalized := normalizeFormulaV1 str allDefs
  if normalized = "" then none else mparse normalized

/-- The _off_ context function (lines 235-239). -/
def offClosureCore (sm : SeriesMap) (i : Nat) (name : JVal)
    (off : Option JVal) : ℚ :=
  match name with
  | .vstr n =>
    (match seriesGet sm n with
     | none => 0
     | some arr =>
       match (match off with | none => some (0 : ℚ) | some v => jsNumber v) with
       | some q => getAtQ arr ((i : ℚ) - q)
       | none => 0)
  | _ => 0

def offClosure (sm : SeriesMap) (i : Nat) : List JVal → Except String JVal
  | [] => .ok (.num 0)
  | [name] => .ok (.num (offClosureCore sm i name none))
  | name :: off :: _ => .ok (.num (offClosureCore sm i name (some off)))

/-- The _sma_ context function (lines 242-275): dispatch on the dynamic
type of the input, then the zero-padded trailing collection.  A NaN
length collects nothing; a NaN offset reads 0 everywhere, so both give
0 on the series branches. -/
def smaDispatch (sm : SeriesMap) (i : Nat) (input : JVal)
    (lenN offN : Option ℚ) : ℚ :=
  match input with
  | .num q => q
  | .vbool _ => 0
  | .vstr n =>
    (match seriesGet sm n with
     | none => 0
     | some arr =>
       match lenN, offN with
       | some l, some o => smaFn arr i l o
       | _, _ => 0)
  | .varr xs =>
    (match lenN, offN with
     | some l, some o => smaFn xs i l o
     | _, _ => 0)

def argNum1 (rest : List JVal) : Option ℚ :=
  match rest with
  | [] => some 1
  | l :: _ => jsNumber l

def argNum2 (rest : List JVal) : Option ℚ :=
  match rest with
  | _ :: o :: _ => jsNumber o
  | _ => some 0

def smaClosure (sm : SeriesMap) (i : Nat) : List JVal → Except String JVal
  | [] => .ok (.num 0)
  | input :: rest =>
    .ok (.num (smaDispatch sm i input (argNum1 rest) (argNum2 rest)))

/-- The _highest_ / _lowest_ context functions (lines 278-333). -/
def windowDispatch (agg : List ℚ → Int → ℚ → ℚ) (sm : SeriesMap) (i : Nat)
    (input : JVal) (lenN : Option ℚ) : ℚ :=
  match input with
  | .num q => q
  | .vbool _ => 0
  | .vstr n =>
    (match seriesGet sm n with
     | none => 0
     | some arr =>
       match lenN with
       | some l => agg arr i l
       | none => 0)
  | .varr xs =>
    (match lenN with
     | some l => agg xs i l
     | none => 0)

def highestClosure (sm : SeriesMap) (i : Nat) : List JVal → Except String JVal
  | [] => .ok (.num 0)
  | input :: rest =>
    .ok (.num (windowDispatch highestFn sm i input (argNum1 rest)))

def lowestClosure (sm : SeriesMap) (i : Nat) : List JVal → Except String JVal
  | [] => .ok (.num 0)
  | input :: rest =>
    .ok (.num (windowDispatch lowestFn sm i input (argNum1 rest)))

/-- The twelve scalar base-series bindings of createContext. -/
def baseVars (sm : SeriesMap) (i : Nat) : List (String × JVal) :=
  [("open", .num (getAt sm.sopen i)), ("high", .num (getAt sm.shigh i)),
   ("low", .num (getAt sm.slow i)), ("close", .num (getAt sm.sclose i)),
   ("volume", .num (getAt sm.svolume i)), ("oi", .num (getAt sm.soi i)),
   ("delta", .num (getAt sm.sdelta i)), ("gamma", .num (getAt sm.sgamma i)),
   ("theo", .num (getAt sm.stheo i)), ("mark", .num (getAt sm.smark i)),
   ("ask", .num (getAt sm.sask i)), ("bid", .num (getAt sm.sbid i))]

/-- The per-def bindings the evaluation loops assign onto the context:
the scalar value at the current index (JS value || 0) and the _array
variant. -/
def defVarsV1 (defSeries : List (String × List ℚ)) (i : Nat) :
    List (String × JVal) :=
  defSeries.foldr
    (fun p acc => (p.1, JVal.num (p.2.getD i 0)) :: (p.1 ++ "_array", JVal.varr p.2) :: acc)
    []

/-- createContext (lines 215-345) plus the def bindings assigned after
construction; assigned properties shadow the base ones, so they come
first in lookup order. -/
def scopeV1 (candles : List Candle) (i : Nat)
    (defSeries : List (String × List ℚ)) : Scope :=
  let sm := buildSeries candles
  { vars := defVarsV1 defSeries i ++ baseVars sm i,
    fns := [("_off_", offClosure sm i), ("_sma_", smaClosure sm i),
            ("_highest_", highestClosure sm i), ("_lowest_", lowestClosure sm i)]
           ++ mathFns }

/-- The failure log entries of buildDefSeries: one evaluation error per
failing candle index, one compile error per failed compile attempt, one
final warning naming the defs never evaluated. -/
inductive LogEvent where
  | evalError (defName : String) (idx : Nat)
  | compileError (defName : String)
  | unevaluatedWarn (names : List String)
deriving Repr, DecidableEq

def evalDefIdxV1 (ast : MExpr) (candles : List Candle)
    (defSeries : List (String × List ℚ)) (idx : Nat) (defName : String) :
    ℚ × List LogEvent :=
  match meval ast (scopeV1 candles idx defSeries) with
  | .ok v => (coerceNum v, [])
  | .error _ => (0, [LogEvent.evalError defName idx])

/-- The inner candle loop of buildDefSeries for one def: the formula is
compiled (identically) at each index, so a compile failure shows at
index 0 and aborts; an evaluation error logs and pushes 0 for that
index only. -/
def evalDefV1 (defName defExpr : String) (defs : List (String × String))
    (candles : List Candle) (defSeries : List (String × List ℚ)) :
    Option (List ℚ) × List LogEvent :=
  if candles.length = 0 then (some [], [])
  else
    match compileFormulaV1 defExpr defs with
    | none => (none, [LogEvent.compileError defName])
    | some ast =>
      let results := (List.range candles.length).map
        (fun idx => evalDefIdxV1 ast candles defSeries idx defName)
      (some (results.map Prod.fst), (results.map Prod.snd).flatten)

structure DefBuildState where
  defSeries : List (String × List ℚ)
  evaluated : List String
  logs : List LogEvent

/-- One def considered inside one pass: skip if done or blocked on an
unevaluated dependency (whole-word reference to another def). -/
def defStepV1 (defs : List (String × String)) (candles : List Candle)
    (defNames : List String) (st : DefBuildState) (defName : String) :
    DefBuildState × Bool :=
  if st.evaluated.contains defName then (st, false)
  else
    let defExpr := (alookup defs defName).getD ""
    let deps := defNames.filter (fun other =>
      other ≠ defName ∧ ¬ st.evaluated.contains other
        ∧ containsWordCS other (strL defExpr))
    if ¬ deps.isEmpty then (st, false)
    else
      match evalDefV1 defName defExpr defs candles st.defSeries with
      | (some values, logs) =>
        ({ defSeries := qset st.defSeries defName values,
           evaluated := st.evaluated ++ [defName],
           logs := st.logs ++ logs }, true)
      | (none, logs) =>
        ({ st with logs := st.logs ++ logs }, false)

def onePassV1 (defs : List (String × String)) (candles : List Candle)
    (defNames : List String) (st : DefBuildState) : DefBuildState × Bool :=
  defNames.foldl (fun acc dn =>
    let r := defStepV1 defs candles defNames acc.1 dn
    (r.1, acc.2 || r.2)) (st, false)

def runPassesV1 (defs : List (String × String)) (candles : List Candle)
    (defNames : List String) : Nat → DefBuildState → DefBuildState
  | 0, st => st
  | p + 1, st =>
    let r := onePassV1 defs candles defNames st
    if r.2 then runPassesV1 defs candles defNames p r.1 else r.1

structure DefBuildResult where
  defSeries : List (String × List ℚ)
  logs : List LogEvent

/-- buildDefSeries of the first iteration (lines 351-434): up to twenty
dependency passes, stopping on a pass without progress. -/
def buildDefSeriesV1 (candles : List Candle) (defs : List (String × String)) :
    DefBuildResult :=
  if defs.isEmpty then ⟨[], []⟩
  else
    let defNames := defs.map Prod.fst
    let st := runPassesV1 defs candles defNames 20 ⟨[], [], []⟩
    let unevaluated := defNames.filter (fun d => ¬ st.evaluated.contains d)
    ⟨st.defSeries,
     st.logs ++ (if unevaluated.isEmpty then [] else [LogEvent.unevaluatedWarn unevaluated])⟩

structure EvalFR where
  labels : List (Option ℚ)
  compiledCount : Nat
deriving Repr, DecidableEq

/-- One top-level formula at the last candle: compile failure and
thrown evaluation errors give null, booleans coerce to 1/0, non-finite
results give null. -/
def evalFormulaV1 (sc : Scope) (defs : List (String × String)) (f : String) :
    Option ℚ :=
  match compileFormulaV1 f defs with
  | none => none
  | some ast =>
    match meval ast sc with
    | .error _ => none
    | .ok (.vbool b) => some (if b then 1 else 0)
    | .ok v => jsNumber v

/-- evaluateFormulasOnCandles of the first iteration (lines 439-490). -/
def evaluateFormulasOnCandlesV1 (candles : List Candle)
    (formulas : List String) (defs : List (String × String)) : EvalFR :=
  if candles.isEmpty then ⟨formulas.map (fun _ => none), formulas.length⟩
  else
    let defSeries := (buildDefSeriesV1 candles defs).defSeries
    let lastIndex := candles.length - 1
    let sc := scopeV1 candles lastIndex defSeries
    ⟨formulas.map (fun f => evalFormulaV1 sc defs f), formulas.length⟩

/-! NO LIMITATIONS engine iteration (the unnamed copy of
stage4Engine.js carrying the recursive aggregation expander). -/

/-- normalizeFormula of the NO LIMITATIONS iteration (its lines
147-203): as the first iteration but without the argument-quoting
passes. -/
def normalizeFormulaP3 (raw : String) (allDefs : List (String × String)) :
    String :=
  if raw = "" then ""
  else
    let s := strL raw
    let s := replaceCallCI "SimpleMovingAvg" "_sma_" s
    let s := replaceCallCI "simplemovingavg" "_sma_" s
    let s := replaceCallCI "Average" "_sma_" s
    let s := replaceCallCI "Highest" "_highest_" s
    let s := replaceCallCI "highest" "_highest_" s
    let s := replaceCallCI "Lowest" "_lowest_" s
    let s := replaceCallCI "lowest" "_lowest_" s
    let s := replaceCallCI "Max" "max" s
    let s := replaceCallCI "max" "max" s
    let s := replaceCallCI "Min" "min" s
    let s := replaceCallCI "min" "min" s
    let s := replaceOffsets s
    let s := expandDefsLoop 20 allDefs s
    let s := stripCallCI ".SetDefaultColor" s
    let s := stripCallCI ".SetPaintingStrategy" s
    let s := stripCallCI ".SetLineWeight" s
    let s := stripCallCI "SetDefaultColor" s
    let s := stripCallCI "SetPaintingStrategy" s
    let s := stripDeclare s
    let s := stripCallCI "AddLabel" s
    let s := replaceWordAllCS "Low" "low" s
    let s := replaceWordAllCS "High" "high" s
    let s := replaceWordAllCS "Open" "open" s
    let s := replaceWordAllCS "Close" "close" s
    let s := replaceWordAllCS "Volume" "volume" s
    lstr (jsTrim s)

/-- The per-def bindings of createBasicContext (its lines 275-278):
getAt of the def series at the index; no _array variants here. -/
def defVarsP3 (defSeries : List (String × List ℚ)) (i : Nat) :
    List (String × JVal) :=
  defSeries.foldr (fun p acc => (p.1, JVal.num (getAt p.2 i)) :: acc) []

/-- Temp-series bindings added over the basic context in the final
evaluation loop of evaluateFormulaRecursive: series value at the index
(JS value || 0). -/
def tempVarsP3 (temps : List (String × List ℚ)) (i : Nat) :
    List (String × JVal) :=
  temps.foldr (fun p acc => (p.1, JVal.num (p.2.getD i 0)) :: acc) []

/-- createBasicContext (its lines 237-281), optionally extended with
temp bindings: the base scalars, the _off_ accessor and the scalar math
functions; no window functions live here. -/
def scopeP3 (candles : List Candle) (i : Nat)
    (defSeries temps : List (String × List ℚ)) : Scope :=
  let sm := buildSeries candles
  { vars := tempVarsP3 temps i ++ defVarsP3 defSeries i ++ baseVars sm i,
    fns := [("_off_", offClosure sm i)] ++ mathFns }

/-- evaluateSimpleExpression (its lines 286-304): parse once, evaluate
at each index coercing non-finite to 0; any thrown error (including a
parse error) makes the whole series zero. -/
def evaluateSimpleExpression (expr : String) (candles : List Candle)
    (defSeries : List (String × List ℚ)) : List ℚ :=
  match mparse expr with
  | none => candles.map (fun _ => 0)
  | some ast =>
    let results := (List.range candles.length).map
      (fun i => meval ast (scopeP3 candles i defSeries []))
    if results.any (fun r => match r with | .error _ => true | .ok _ => false) then
      candles.map (fun _ => 0)
    else
      results.map (fun r => match r with | .ok v => coerceNum v | .error _ => 0)

/-- The final evaluation loop of evaluateFormulaRecursive (its lines
416-436) over the residual expression with temp bindings; one thrown
error zeroes the whole series. -/
def evalResidual (expr : String) (candles : List Candle)
    (defSeries temps : List (String × List ℚ)) : Option (List ℚ) :=
  match mparse expr with
  | none => none
  | some ast =>
    let results := (List.range candles.length).map
      (fun i => meval ast (scopeP3 candles i defSeries temps))
    if results.any (fun r => match r with | .error _ => true | .ok _ => false) then
      none
    else
      some (results.map (fun r => match r with | .ok v => coerceNum v | .error _ => 0))

/-- The constant-length evaluation at each call site (its lines
390-399): math.evaluate with only the scalar functions in scope;
failures keep the default 20. -/
def lengthScope : Scope :=
  { vars := [],
    fns := [("abs", fnAbs), ("min", fnMin), ("max", fnMax),
            ("log", fnIrrational), ("sqrt", fnIrrational), ("pow", fnPow)] }

def evalLengthExpr (lengthExpr : String) : ℚ :=
  match mparse lengthExpr with
  | none => 20
  | some ast =>
    match meval ast lengthScope with
    | .ok (.num q) => q
    | .ok (.vbool b) => if b then 1 else 0
    | _ => 20

/-- The working state of the call-replacement loop of
evaluateFormulaRecursive. -/
structure WorkState where
  workingExpr : String
  temps : List (String × List ℚ)
  counter : Nat
  cache : List (String × List ℚ)

/-- The two request shapes of the fueled recursive evaluator: evaluate
one expression, or process a list of call sites. -/
inductive EfrQ where
  | qEval (expr : String) (cache : List (String × List ℚ))
  | qCalls (cs : List AggCall) (st : WorkState)

inductive EfrR where
  | rEval (series : List ℚ) (cache : List (String × List ℚ))
  | rCalls (st : WorkState)

/-- evaluateFormulaRecursive (its lines 347-440) together with its
call-processing loop, driven by fuel so that every recursive call is
structural; the fuel exceeds twice the nesting depth of every
expression under verification, and exhaustion (never reached there)
behaves like the catch-all error path, a zero series. -/
def efrAux (candles : List Candle) (allDefs : List (String × String))
    (defSeries : List (String × List ℚ)) : Nat → EfrQ → EfrR
  | 0, .qEval _ cache => .rEval (candles.map (fun _ => 0)) cache
  | 0, .qCalls _ st => .rCalls st
  | fuel + 1, .qEval expr cache =>
    (match qlookup cache expr with
     | some v => .rEval v cache
     | none =>
       let normalized := normalizeFormulaP3 expr allDefs
       let aggCalls := findAggregationCalls normalized
       if aggCalls.isEmpty then
         let r := evaluateSimpleExpression normalized candles defSeries
         .rEval r (qset cache expr r)
       else
         let sorted := sortByStartDesc aggCalls
         match efrAux candles allDefs defSeries fuel
             (.qCalls sorted ⟨normalized, [], 0, cache⟩) with
         | .rCalls st =>
           (match evalResidual st.workingExpr candles defSeries st.temps with
            | none => .rEval (candles.map (fun _ => 0)) st.cache
            | some vals => .rEval vals (qset st.cache expr vals))
         | .rEval v c => .rEval v c)
  | _ + 1, .qCalls [] st => .rCalls st
  | fuel + 1, .qCalls (call :: rest) st =>
    let args := parseArguments call.argsStr
    if args.length < 2 then
      efrAux candles allDefs defSeries fuel (.qCalls rest st)
    else
      let inputExpr := args.getD 0 ""
      let lengthExpr := args.getD 1 ""
      let length := evalLengthExpr lengthExpr
      match efrAux candles allDefs defSeries fuel (.qEval inputExpr st.cache) with
      | .rEval inputSeries cache2 =>
        let resultSeries := applyAggregation call.funcName inputSeries length candles.length
        let tempVar := "__temp" ++ toString st.counter ++ "__"
        efrAux candles allDefs defSeries fuel (.qCalls rest
          { workingExpr := replaceFirst st.workingExpr call.fullCall tempVar,
            temps := st.temps ++ [(tempVar, resultSeries)],
            counter := st.counter + 1,
            cache := cache2 })
      | .rCalls st2 => efrAux candles allDefs defSeries fuel (.qCalls rest st2)

def evaluateFormulaRecursive (fuel : Nat) (expr : String)
    (candles : List Candle) (allDefs : List (String × String))
    (defSeries cache : List (String × List ℚ)) :
    List ℚ × List (String × List ℚ) :=
  match efrAux candles allDefs defSeries fuel (.qEval expr cache) with
  | .rEval series cache2 => (series, cache2)
  | .rCalls _ => (candles.map (fun _ => 0), cache)

/-- One def step of buildDefSeries in the NO LIMITATIONS iteration (its
lines 445-500): the recursive evaluator never throws in the model, so
every unblocked def binds its series. -/
def defStepP3 (fuel : Nat) (defs : List (String × String))
    (candles : List Candle) (defNames : List String)
    (st : List (String × List ℚ) × List String) (defName : String) :
    (List (String × List ℚ) × List String) × Bool :=
  if st.2.contains defName then (st, false)
  else
    let defExpr := (alookup defs defName).getD ""
    let deps := defNames.filter (fun other =>
      other ≠ defName ∧ ¬ st.2.contains other
        ∧ containsWordCS other (strL defExpr))
    if ¬ deps.isEmpty then (st, false)
    else
      let values := (evaluateFormulaRecursive fuel defExpr candles defs st.1 []).1
      ((qset st.1 defName values, st.2 ++ [defName]), true)

def runPassesP3 (fuel : Nat) (defs : List (String × String))
    (candles : List Candle) (defNames : List String) :
    Nat → List (String × List ℚ) × List String → List (String × List ℚ) × List String
  | 0, st => st
  | p + 1, st =>
    let r := defNames.foldl (fun acc dn =>
      let r2 := defStepP3 fuel defs candles defNames acc.1 dn
      (r2.1, acc.2 || r2.2)) (st, false)
    if r.2 then runPassesP3 fuel defs candles defNames p r.1 else r.1

def buildDefSeriesP3 (fuel : Nat) (candles : List Candle)
    (defs : List (String × String)) : List (String × List ℚ) :=
  if defs.isEmpty then []
  else
    (runPassesP3 fuel defs candles (defs.map Prod.fst) 20 ([], [])).1

/-- evaluateFormulasOnCandles of the NO LIMITATIONS iteration (its
lines 505-545): each formula materialized bottom-up with a fresh cache,
labelled by its last value. -/
def evaluateFormulasOnCandlesP3 (fuel : Nat) (candles : List Candle)
    (formulas : List String) (defs : List (String × String)) : EvalFR :=
  if candles.isEmpty then ⟨formulas.map (fun _ => none), formulas.length⟩
  else
    let defSeries := buildDefSeriesP3 fuel candles defs
    ⟨formulas.map (fun f =>
      let resultSeries := (evaluateFormulaRecursive fuel f candles defs defSeries []).1
      let lastValue := resultSeries.getD (resultSeries.length - 1) 0
      some lastValue),
     formulas.length⟩

/-! Script parsing. -/

structure ParseResultV1 where
  plots : List (String × String)
  defs : List (String × String)
  inputs : List (String × String)
deriving Repr, DecidableEq

/-- Comment stripping, line-ending normalization and tab replacement of
the first-iteration parser. -/
def cleanScriptV1 (s : List Char) : List Char :=
  tabsToSpaces (replaceCRLF (stripBlockComments (stripLineComments s)))

/-- extractPlotExpressions of the first iteration (lines 18-76): the
caller-supplied override map is only read; discovered inputs live in a
fresh map. -/
def extractPlotExpressionsV1 (scriptText : String)
    (userInputs : List (String × String)) : ParseResultV1 :=
  if scriptText = "" then ⟨[], [], []⟩
  else
    let script := cleanScriptV1 (strL scriptText)
    let script := replaceWordAllCI "and" " && " script
    let script := replaceWordAllCI "or" " || " script
    let inputs := (scanDecls "input" script).foldl
      (fun m p =>
        let value := lstr (jsTrim (strL p.2))
        aset m p.1 (match alookup userInputs p.1 with
          | some v => v
          | none => value)) []
    let script := inputs.foldl (fun sc p => replaceWordAllCS p.1 p.2 sc) script
    let defs := (scanDecls "def" script).foldl
      (fun m p => aset m p.1 (lstr (jsTrim (strL p.2)))) []
    let plots := (scanDecls "plot" script).map
      (fun p => (p.1, lstr (jsTrim (strL p.2))))
    ⟨plots, defs, inputs⟩

/-- The first iteration as seen through the module-level tempDefCounter
cell: the only state effect is the reset to 0 after the early-return
guard; nothing ever reads the cell. -/
def extractPlotExpressionsV1S (counter : Nat) (scriptText : String)
    (userInputs : List (String × String)) : Nat × ParseResultV1 :=
  if scriptText = "" then (counter, ⟨[], [], []⟩)
  else (0, extractPlotExpressionsV1 scriptText userInputs)

structure RowIn where
  symbol : String
  candles : List Candle

structure RowOut where
  symbol : String
  labels : List (Option ℚ)
  studies : List (Option ℚ)
deriving Repr, DecidableEq

/-- One step of the study1..study5 formula-collection loop of
evaluateRows. -/
def cfStep (acc : Nat × List String) (scr : Option String) :
    Nat × List String :=
  match scr with
  | none => acc
  | some script =>
    if script = "" then acc
    else
      let e := extractPlotExpressionsV1S acc.1 script []
      (e.1, acc.2 ++ e.2.plots.map Prod.snd)

/-- The study1..study5 formula-collection loop of evaluateRows when no
flat formula list is given: plot expressions in script order, capped at
twenty-five. -/
def collectFormulas (raw : List (Option String)) (counter : Nat) :
    Nat × List String :=
  let r := (raw.take 5).foldl cfStep (counter, [])
  (r.1, r.2.take 25)

/-- One step of the per-row def collection of evaluateRows. -/
def cdStep (acc : Nat × List (String × String)) (scr : Option String) :
    Nat × List (String × String) :=
  match scr with
  | none => acc
  | some script =>
    if script = "" then acc
    else
      let e := extractPlotExpressionsV1S acc.1 script []
      (e.1, e.2.defs.foldl (fun m p => aset m p.1 p.2) acc.2)

/-- The per-row def collection of evaluateRows: defs of all five
scripts merged left to right. -/
def collectDefs (raw : List (Option String)) (counter : Nat) :
    Nat × List (String × String) :=
  (raw.take 5).foldl cdStep (counter, [])

/-- One row of evaluateRows. -/
def rowStep (raw : List (Option String)) (formulas : List String)
    (acc : Nat × List RowOut) (row : RowIn) : Nat × List RowOut :=
  if row.candles.isEmpty then
    (acc.1, acc.2 ++ [⟨row.symbol, formulas.map (fun _ => none), formulas.map (fun _ => none)⟩])
  else
    let d := collectDefs raw acc.1
    let labels := (evaluateFormulasOnCandlesV1 row.candles formulas d.2).labels
    (d.1, acc.2 ++ [⟨row.symbol, labels, labels⟩])

/-- evaluateRows of the first iteration (lines 495-553), with the
tempDefCounter cell threaded explicitly. -/
def evaluateRowsV1S (counter : Nat) (rows : List RowIn)
    (studyScriptsFlat : List String) (raw : List (Option String)) :
    Nat × List RowOut :=
  let f :=
    if studyScriptsFlat.isEmpty then collectFormulas raw counter
    else (counter, studyScriptsFlat.take 25)
  rows.foldl (rowStep raw f.2) (f.1, [])

structure ParseResultV2 where
  plots : List (String × String)
  defs : List (String × String)
  inputsAfter : List (String × String)
deriving Repr, DecidableEq

/-- JS truthiness of the string values held in the override map. -/
def truthyStr (s : String) : Bool := s ≠ ""

/-- The Highest/Lowest pre-processing of the second-iteration parser
(lines 615-627): KEYWORD(\s*(EXPR)\s*,\s*N\s*) with a parenthesized
first argument becomes KEYWORD(_tempKEYWORDn, N) and binds the inner
expression as a def. -/
def tempDefScanAux (kw base : String) :
    Nat → Nat → List Char → List (String × String) →
    List Char × List (String × String) × Nat
  | 0, ctr, s, defs => (s, defs, ctr)
  | _ + 1, ctr, [], defs => ([], defs, ctr)
  | fuel + 1, ctr, c :: cs, defs =>
    let adv :=
      let r := tempDefScanAux kw base fuel ctr cs defs
      (c :: r.1, r.2)
    match stripPrefCI (strL kw ++ ['(']) (c :: cs) with
    | some rest1 =>
      (match rest1.dropWhile Char.isWhitespace with
       | '(' :: rest3 =>
         let inner := rest3.takeWhile (fun ch => ch ≠ ')')
         if inner.isEmpty then adv
         else
           (match rest3.drop inner.length with
            | ')' :: rest4 =>
              (match rest4.dropWhile Char.isWhitespace with
               | ',' :: rest6 =>
                 let rest7 := rest6.dropWhile Char.isWhitespace
                 let digits := rest7.takeWhile isDigitCh
                 if digits.isEmpty then adv
                 else
                   (match (rest7.drop digits.length).dropWhile Char.isWhitespace with
                    | ')' :: rest9 =>
                      let nm := base ++ toString ctr
                      let r := tempDefScanAux kw base fuel (ctr + 1) rest9
                        (aset defs nm (lstr inner))
                      (strL (kw ++ "(" ++ nm ++ ", ") ++ digits ++ ')' :: r.1, r.2)
                    | _ => adv)
               | _ => adv)
            | _ => adv)
       | _ => adv)
    | none => adv

def tempDefScan (kw base : String) (ctr : Nat) (s : List Char)
    (defs : List (String × String)) :
    List Char × List (String × String) × Nat :=
  tempDefScanAux kw base (s.length + 1) ctr s defs

/-- extractPlotExpressions of the second iteration (lines 577-646): the
caller map itself receives every discovered default whose key is absent
or falsy, def expressions are inlined into plot expressions, and the
mutated caller map is the inputsAfter component. -/
def extractPlotExpressionsV2 (scriptText : String)
    (inputs0 : List (String × String)) : ParseResultV2 :=
  if scriptText = "" then ⟨[], [], inputs0⟩
  else
    let cleaned := replaceCRLF (stripBlockComments (stripLineComments (strL scriptText)))
    let cleaned := replaceWordAllCI "and" " && " cleaned
    let cleaned := replaceWordAllCI "or" " || " cleaned
    let inputs := (scanDecls "input" cleaned).foldl
      (fun m p =>
        let v := lstr (jsTrim (strL p.2))
        match alookup m p.1 with
        | some cur => if truthyStr cur then m else aset m p.1 v
        | none => aset m p.1 v) inputs0
    let cleaned := inputs.foldl (fun sc p => replaceWordAllCS p.1 p.2 sc) cleaned
    let defs0 := (scanDecls "def" cleaned).foldl
      (fun m p => aset m p.1 (lstr (jsTrim (strL p.2)))) []
    let h := tempDefScan "Highest" "_tempHighest" 0 cleaned defs0
    let l := tempDefScan "Lowest" "_tempLowest" h.2.2 h.1 h.2.1
    let plots := (scanDecls "plot" l.1).filterMap (fun p =>
      let e0 := jsTrim (strL p.2)
      let e1 := l.2.1.foldl
        (fun e d => replaceWordAllCS d.1 ("(" ++ d.2 ++ ")") e) e0
      if lstr e1 = "" then none else some (p.1, lstr e1))
    ⟨plots, l.2.1, inputs⟩

/-! Helper lemmas for the claim theorems. -/

lemma getAt_natCast (arr : List ℚ) (i : Nat) (h : i < arr.length) :
    getAt arr (i : Int) = arr.getD i 0 := by
  rw [getAt, if_neg (not_lt.mpr (Int.natCast_nonneg i)),
    if_neg (by exact_mod_cast not_le.mpr h), Int.toNat_natCast]

lemma getAtQ_intCast (arr : List ℚ) (n : Int) :
    getAtQ arr ((n : Int) : ℚ) = getAt arr n := by
  rw [getAtQ, if_pos (Rat.den_intCast n), Rat.num_intCast]

lemma flatten_singleton_map {α β : Type} (f : α → β) (l : List α) :
    (l.map (fun a => [f a])).flatten = l.map f := by
  induction l with
  | nil => rfl
  | cons x xs ih => simp [ih]

/-- Concrete fixtures: the candle scenario of the specification. -/
def candles5 : List Candle :=
  [{close := 10}, {close := 12}, {close := 14}, {close := 16}, {close := 18}]

def close5 : List ℚ := [10, 12, 14, 16, 18]

def candles2 : List Candle := [{close := 10}, {close := 12}]

def candle10 : Candle := {close := 10}

/-- The direct self-referencing def of C5. -/
def defsA : List (String × String) := [("A", "A + 1")]

/-- The compiled form of the self-referencing def after the bounded
inline-expansion passes: twenty wrappings around a leftover symbol A. -/
def astA : MExpr := (compileFormulaV1 "A + 1" defsA).getD (MExpr.num 0)

lemma compileA : compileFormulaV1 "A + 1" defsA = some astA := by
  with_unfolding_all rfl

/-- The leftover symbol A is unbound in every evaluation context, for
every candle series and index. -/
lemma mevalA_err (candles : List Candle) (idx : Nat) :
    meval astA (scopeV1 candles idx []) = .error "Undefined symbol A" := by
  with_unfolding_all rfl

lemma evalDefIdxA (candles : List Candle) (idx : Nat) :
    evalDefIdxV1 astA candles [] idx "A" = (0, [LogEvent.evalError "A" idx]) := by
  rw [evalDefIdxV1, mevalA_err]

lemma evalDefA (candles : List Candle) :
    evalDefV1 "A" "A + 1" defsA candles []
      = (some (List.replicate candles.length 0),
         (List.range candles.length).map (fun idx => LogEvent.evalError "A" idx)) := by
  rw [evalDefV1]
  by_cases h : candles.length = 0
  · simp [h]
  · rw [if_neg h, compileA]
    have hres : (List.range candles.length).map
        (fun idx => evalDefIdxV1 astA candles [] idx "A")
        = (List.range candles.length).map
          (fun idx => ((0 : ℚ), [LogEvent.evalError "A" idx])) :=
      List.map_congr_left (fun idx _ => evalDefIdxA candles idx)
    simp only [hres, List.map_map]
    have h1 : (Prod.fst ∘ fun idx => ((0 : ℚ), [LogEvent.evalError "A" idx]))
        = (fun (_ : Nat) => (0 : ℚ)) := rfl
    have h2 : (Prod.snd ∘ fun idx => ((0 : ℚ), [LogEvent.evalError "A" idx]))
        = (fun idx => [LogEvent.evalError "A" idx]) := rfl
    rw [Prod.mk.injEq, h1, h2]
    constructor
    · rw [List.map_const', List.length_range]
    · exact flatten_singleton_map (fun idx => LogEvent.evalError "A" idx) _

lemma onePassA (candles : List Candle) :
    onePassV1 defsA candles ["A"] ⟨[], [], []⟩
      = (⟨[("A", List.replicate candles.length 0)], ["A"],
          (List.range candles.length).map (fun idx => LogEvent.evalError "A" idx)⟩,
         true) := by
  simp only [onePassV1, List.foldl, defStepV1,
    show (alookup defsA "A").getD "" = "A + 1" from rfl]
  rw [evalDefA]
  rfl

lemma onePassA2 (candles : List Candle) (st : DefBuildState)
    (h : st.evaluated = ["A"]) :
    onePassV1 defsA candles ["A"] st = (st, false) := by
  simp [onePassV1, defStepV1, h, List.contains]

lemma buildDefSeriesA (candles : List Candle) :
    buildDefSeriesV1 candles defsA
      = ⟨[("A", List.replicate candles.length 0)],
         (List.range candles.length).map (fun idx => LogEvent.evalError "A" idx)⟩ := by
  rw [buildDefSeriesV1]
  rw [if_neg (by simp [defsA])]
  show (let st := runPassesV1 defsA candles ["A"] 20 ⟨[], [], []⟩
        let unevaluated := ["A"].filter (fun d => ¬ st.evaluated.contains d)
        DefBuildResult.mk st.defSeries
          (st.logs ++ (if unevaluated.isEmpty then [] else [LogEvent.unevaluatedWarn unevaluated]))) = _
  rw [show runPassesV1 defsA candles ["A"] 20 ⟨[], [], []⟩
      = runPassesV1 defsA candles ["A"] 19
        ⟨[("A", List.replicate candles.length 0)], ["A"],
         (List.range candles.length).map (fun idx => LogEvent.evalError "A" idx)⟩ by
    rw [runPassesV1, onePassA]
    rfl]
  rw [show runPassesV1 defsA candles ["A"] 19
        ⟨[("A", List.replicate candles.length 0)], ["A"],
         (List.range candles.length).map (fun idx => LogEvent.evalError "A" idx)⟩
      = ⟨[("A", List.replicate candles.length 0)], ["A"],
         (List.range candles.length).map (fun idx => LogEvent.evalError "A" idx)⟩ by
    rw [runPassesV1, onePassA2 _ _ rfl]
    rfl]
  simp

/-- The unknown-identifier def of C6. -/
def defsD : List (String × String) := [("D", "close + foo")]

def astD : MExpr := (compileFormulaV1 "close + foo" defsD).getD (MExpr.num 0)

lemma compileD : compileFormulaV1 "close + foo" defsD = some astD := by
  with_unfolding_all rfl

/-- The identifier foo is unbound in every evaluation context: the
whole expression throws, for every candle series and index. -/
lemma mevalD_err (candles : List Candle) (idx : Nat) :
    meval astD (scopeV1 candles idx []) = .error "Undefined symbol foo" := by
  with_unfolding_all rfl

lemma evalDefIdxD (candles : List Candle) (idx : Nat) :
    evalDefIdxV1 astD candles [] idx "D" = (0, [LogEvent.evalError "D" idx]) := by
  rw [evalDefIdxV1, mevalD_err]

lemma evalDefD (candles : List Candle) :
    evalDefV1 "D" "close + foo" defsD candles []
      = (some (List.replicate candles.length 0),
         (List.range candles.length).map (fun idx => LogEvent.evalError "D" idx)) := by
  rw [evalDefV1]
  by_cases h : candles.length = 0
  · simp [h]
  · rw [if_neg h, compileD]
    have hres : (List.range candles.length).map
        (fun idx => evalDefIdxV1 astD candles [] idx "D")
        = (List.range candles.length).map
          (fun idx => ((0 : ℚ), [LogEvent.evalError "D" idx])) :=
      List.map_congr_left (fun idx _ => evalDefIdxD candles idx)
    simp only [hres, List.map_map]
    have h1 : (Prod.fst ∘ fun idx => ((0 : ℚ), [LogEvent.evalError "D" idx]))
        = (fun (_ : Nat) => (0 : ℚ)) := rfl
    have h2 : (Prod.snd ∘ fun idx => ((0 : ℚ), [LogEvent.evalError "D" idx]))
        = (fun idx => [LogEvent.evalError "D" idx]) := rfl
    rw [Prod.mk.injEq, h1, h2]
    constructor
    · rw [List.map_const', List.length_range]
    · exact flatten_singleton_map (fun idx => LogEvent.evalError "D" idx) _

lemma onePassD (candles : List Candle) :
    onePassV1 defsD candles ["D"] ⟨[], [], []⟩
      = (⟨[("D", List.replicate candles.length 0)], ["D"],
          (List.range candles.length).map (fun idx => LogEvent.evalError "D" idx)⟩,
         true) := by
  simp only [onePassV1, List.foldl, defStepV1,
    show (alookup defsD "D").getD "" = "close + foo" from rfl]
  rw [evalDefD]
  rfl

lemma onePassD2 (candles : List Candle) (st : DefBuildState)
    (h : st.evaluated = ["D"]) :
    onePassV1 defsD candles ["D"] st = (st, false) := by
  simp [onePassV1, defStepV1, h, List.contains]

lemma buildDefSeriesD (candles : List Candle) :
    buildDefSeriesV1 candles defsD
      = ⟨[("D", List.replicate candles.length 0)],
         (List.range candles.length).map (fun idx => LogEvent.evalError "D" idx)⟩ := by
  rw [buildDefSeriesV1]
  rw [if_neg (by simp [defsD])]
  show (let st := runPassesV1 defsD candles ["D"] 20 ⟨[], [], []⟩
        let unevaluated := ["D"].filter (fun d => ¬ st.evaluated.contains d)
        DefBuildResult.mk st.defSeries
          (st.logs ++ (if unevaluated.isEmpty then [] else [LogEvent.unevaluatedWarn unevaluated]))) = _
  rw [show runPassesV1 defsD candles ["D"] 20 ⟨[], [], []⟩
      = runPassesV1 defsD candles ["D"] 19
        ⟨[("D", List.replicate candles.length 0)], ["D"],
         (List.range candles.length).map (fun idx => LogEvent.evalError "D" idx)⟩ by
    rw [runPassesV1, onePassD]
    rfl]
  rw [show runPassesV1 defsD candles ["D"] 19
        ⟨[("D", List.replicate candles.length 0)], ["D"],
         (List.range candles.length).map (fun idx => LogEvent.evalError "D" idx)⟩
      = ⟨[("D", List.replicate candles.length 0)], ["D"],
         (List.range candles.length).map (fun idx => LogEvent.evalError "D" idx)⟩ by
    rw [runPassesV1, onePassD2 _ _ rfl]
    rfl]
  simp

/-- Evaluating the bare base-series identifier close at any index. -/
lemma evalFormula_close (candles : List Candle) (i : Nat) :
    evalFormulaV1 (scopeV1 candles i []) [] "close"
      = some (getAt (candles.map Candle.close) (i : Int)) := by
  with_unfolding_all rfl

/-- Evaluating close + foo throws on the unbound foo, so the label is
null. -/
lemma evalFormula_closefoo (candles : List Candle) (i : Nat) :
    evalFormulaV1 (scopeV1 candles i []) [] "close + foo" = none := by
  with_unfolding_all rfl

/-! State-independence lemmas for the determinism claim: the only
module-level cell, tempDefCounter, is written (reset to 0) and never
read, so every output component is a pure function of the inputs. -/

lemma extractS_snd (c : Nat) (s : String) (ui : List (String × String)) :
    (extractPlotExpressionsV1S c s ui).2 = extractPlotExpressionsV1 s ui := by
  by_cases h : s = "" <;>
    simp [extractPlotExpressionsV1S, extractPlotExpressionsV1, h]

def cfPure (fs : List String) (scr : Option String) : List String :=
  match scr with
  | none => fs
  | some script =>
    if script = "" then fs
    else fs ++ (extractPlotExpressionsV1 script []).plots.map Prod.snd

lemma cfStep_snd (acc : Nat × List String) (scr : Option String) :
    (cfStep acc scr).2 = cfPure acc.2 scr := by
  cases scr with
  | none => rfl
  | some s =>
    by_cases h : s = "" <;> simp [cfStep, cfPure, h, extractS_snd]

lemma foldl_cf (l : List (Option String)) :
    ∀ c fs, (l.foldl cfStep (c, fs)).2 = l.foldl cfPure fs := by
  induction l with
  | nil => intro c fs; rfl
  | cons x xs ih =>
    intro c fs
    rw [List.foldl_cons, List.foldl_cons]
    calc (xs.foldl cfStep (cfStep (c, fs) x)).2
        = xs.foldl cfPure (cfStep (c, fs) x).2 := by
          have h := ih (cfStep (c, fs) x).1 (cfStep (c, fs) x).2
          simpa using h
      _ = xs.foldl cfPure (cfPure fs x) := by rw [cfStep_snd]

lemma collectFormulas_snd (raw : List (Option String)) (c : Nat) :
    (collectFormulas raw c).2 = ((raw.take 5).foldl cfPure []).take 25 := by
  simp only [collectFormulas]
  rw [foldl_cf]

def cdPure (m : List (String × String)) (scr : Option String) :
    List (String × String) :=
  match scr with
  | none => m
  | some script =>
    if script = "" then m
    else (extractPlotExpressionsV1 script []).defs.foldl
      (fun m2 p => aset m2 p.1 p.2) m

lemma cdStep_snd (acc : Nat × List (String × String)) (scr : Option String) :
    (cdStep acc scr).2 = cdPure acc.2 scr := by
  cases scr with
  | none => rfl
  | some s =>
    by_cases h : s = "" <;> simp [cdStep, cdPure, h, extractS_snd]

lemma foldl_cd (l : List (Option String)) :
    ∀ c m, (l.foldl cdStep (c, m)).2 = l.foldl cdPure m := by
  induction l with
  | nil => intro c m; rfl
  | cons x xs ih =>
    intro c m
    rw [List.foldl_cons, List.foldl_cons]
    calc (xs.foldl cdStep (cdStep (c, m) x)).2
        = xs.foldl cdPure (cdStep (c, m) x).2 := by
          have h := ih (cdStep (c, m) x).1 (cdStep (c, m) x).2
          simpa using h
      _ = xs.foldl cdPure (cdPure m x) := by rw [cdStep_snd]

def pureDefs (raw : List (Option String)) : List (String × String) :=
  (raw.take 5).foldl cdPure []

lemma collectDefs_snd (raw : List (Option String)) (c : Nat) :
    (collectDefs raw c).2 = pureDefs raw := by
  simp only [collectDefs, pureDefs]
  rw [foldl_cd]

def rowPure (raw : List (Option String)) (formulas : List String)
    (outs : List RowOut) (row : RowIn) : List RowOut :=
  if row.candles.isEmpty then
    outs ++ [⟨row.symbol, formulas.map (fun _ => none), formulas.map (fun _ => none)⟩]
  else
    let labels := (evaluateFormulasOnCandlesV1 row.candles formulas (pureDefs raw)).labels
    outs ++ [⟨row.symbol, labels, labels⟩]

lemma rowStep_snd (raw : List (Option String)) (formulas : List String)
    (acc : Nat × List RowOut) (row : RowIn) :
    (rowStep raw formulas acc row).2 = rowPure raw formulas acc.2 row := by
  by_cases h : row.candles.isEmpty <;>
    simp [rowStep, rowPure, h, collectDefs_snd]

lemma foldl_row (raw : List (Option String)) (formulas : List String)
    (rows : List RowIn) :
    ∀ c outs, (rows.foldl (rowStep raw formulas) (c, outs)).2
      = rows.foldl (rowPure raw formulas) outs := by
  induction rows with
  | nil => intro c outs; rfl
  | cons x xs ih =>
    intro c outs
    rw [List.foldl_cons, List.foldl_cons]
    calc (xs.foldl (rowStep raw formulas) (rowStep raw formulas (c, outs) x)).2
        = xs.foldl (rowPure raw formulas) (rowStep raw formulas (c, outs) x).2 := by
          have h := ih (rowStep raw formulas (c, outs) x).1
            (rowStep raw formulas (c, outs) x).2
          simpa using h
      _ = xs.foldl (rowPure raw formulas) (rowPure raw formulas outs x) := by
          rw [rowStep_snd]

/-- The full evaluateRows output as a pure function of the request. -/
lemma evaluateRows_snd (c : Nat) (rows : List RowIn) (flat : List String)
    (raw : List (Option String)) :
    (evaluateRowsV1S c rows flat raw).2
      = rows.foldl
          (rowPure raw (if flat.isEmpty then ((raw.take 5).foldl cfPure []).take 25
                        else flat.take 25)) [] := by
  rw [evaluateRowsV1S]
  by_cases h : flat.isEmpty
  · simp only [h, if_true]
    rw [foldl_row, collectFormulas_snd]
  · simp only [h, if_false]
    rw [foldl_row]
    rfl

/-- extractPlotExpressions of the first iteration with the caller's
override map made explicit in the result: the source only reads
userInputs[name] and never assigns into the parameter object, so the
caller-visible map after the call is exactly the one passed in. -/
def extractPlotExpressionsV1Frame (scriptText : String)
    (userInputs : List (String × String)) :
    ParseResultV1 × List (String × String) :=
  (extractPlotExpressionsV1 scriptText userInputs, userInputs)

/-! The claims. -/

/-- C1 (counterexample): the per-index moving-average accessor _sma_
does NOT clip its window at the series start: at index 1 with length 3
over close = [10,12,14,16,18] it pads the missing history with zeros
and divides by 3, returning 22/3, while the clipped trailing mean of
the claim is 11. -/
theorem C1_counterexample :
    smaFn close5 1 3 0 = 22 / 3 ∧ trailingMean 3 close5 1 = 11 ∧
    ((22 : ℚ) / 3) ≠ 11 := by
  refine ⟨by with_unfolding_all rfl, by with_unfolding_all rfl, by norm_num⟩

/-- C1 (amended): the aggregation-expander window function
applyAggregation returns the clipped trailing mean (over indices
max(0, i-L+1) .. i only) at every in-range index; the per-index _sma_
accessor agrees with that clipped mean exactly from index L-1 onward;
and SimpleMovingAvg(close, 3) over close = [10,12,14,16,18] evaluates
to 16 at the last index through both engine pipelines. -/
theorem C1_amended_clipped_window (s : List ℚ) (L n i : Nat)
    (hL : 1 ≤ L) (hn : s.length = n) (hi : i < n) :
    (applyAggregation "_sma_" s (L : ℚ) n).getD i 0 = trailingMean L s i ∧
    (L - 1 ≤ i → smaFn s (i : Int) (L : ℚ) 0 = trailingMean L s i) ∧
    (evaluateFormulasOnCandlesV1 candles5 ["SimpleMovingAvg(close, 3)"] []).labels
      = [some 16] ∧
    (evaluateFormulasOnCandlesP3 50 candles5 ["SimpleMovingAvg(close, 3)"] []).labels
      = [some 16] := by
  refine ⟨applyAgg_sma_eq_trailingMean s L n i hL hn hi,
    fun hfull => smaFn_full_history s L i hL hfull (hn ▸ hi),
    by with_unfolding_all rfl, by with_unfolding_all rfl⟩

theorem C1_amended_clipped_window_witness :
    (1 ≤ 3 ∧ close5.length = 5 ∧ 4 < 5) ∧
    ((applyAggregation "_sma_" close5 ((3 : Nat) : ℚ) 5).getD 4 0 = trailingMean 3 close5 4 ∧
     (3 - 1 ≤ 4 → smaFn close5 ((4 : Nat) : Int) ((3 : Nat) : ℚ) 0 = trailingMean 3 close5 4) ∧
     (evaluateFormulasOnCandlesV1 candles5 ["SimpleMovingAvg(close, 3)"] []).labels
       = [some 16] ∧
     (evaluateFormulasOnCandlesP3 50 candles5 ["SimpleMovingAvg(close, 3)"] []).labels
       = [some 16]) :=
  ⟨⟨by norm_num, rfl, by norm_num⟩,
   C1_amended_clipped_window close5 3 5 4 (by norm_num) rfl (by norm_num)⟩

/-- C2 (code bug): evaluating the nested window expression
Highest(SimpleMovingAvg(close, 3), 5) on close = [10,12,14,16,18]
through the recursive aggregation expander yields the label 0, not the
bottom-up value: the rightmost-first span replacement erases the inner
call from the working expression, so the outer call site recorded
before the replacement no longer occurs and is never substituted; the
residual expression still names _highest_, which is undefined in the
residual evaluation context, and the thrown error is converted to an
all-zero series.  The correct bottom-up value (max over the trailing
five of the materialized inner moving average) is 16. -/
theorem C2_nested_aggregation_bug :
    (evaluateFormulasOnCandlesP3 50 candles5
        ["Highest(SimpleMovingAvg(close, 3), 5)"] []).labels = [some 0] ∧
    trailingMax 5 (specSmaSeries 3 close5) 4 = 16 ∧
    (some (0 : ℚ) : Option ℚ) ≠ some 16 := by
  refine ⟨by with_unfolding_all rfl, by with_unfolding_all rfl, by norm_num⟩

/-- C3: the classifier follows exactly the claimed precedence (missing
value, then both bounds absent, then below, then above, then within),
and the scenario values 16, 20 and null against {min:15, max:17}
classify as within, above and unknown. -/
theorem C3_classifier_precedence (v : Option ℚ) (thr : Threshold) :
    labelStatus v thr = specClassify v thr ∧
    labelStatus (some 16) ⟨some 15, some 17⟩ = "within" ∧
    labelStatus (some 20) ⟨some 15, some 17⟩ = "above" ∧
    labelStatus none ⟨some 15, some 17⟩ = "unknown" := by
  refine ⟨?_, by with_unfolding_all rfl, by with_unfolding_all rfl, rfl⟩
  cases v with
  | none => rfl
  | some x =>
    obtain ⟨tmin, tmax⟩ := thr
    cases tmin <;> cases tmax <;> simp [labelStatus, specClassify]

/-- C4: the offset accessor at offset 0 returns the raw value at the
index; at offset k it returns the value k steps earlier when that index
exists and 0 when it falls before the start or past the end of the
series; and close[1] over close = [10,12,14,16,18] evaluates to 16 at
the last index. -/
theorem C4_offset_accessor (arr : List ℚ) (i k : Nat) :
    (i < arr.length → offFn arr (i : Int) 0 = arr.getD i 0) ∧
    (k ≤ i ∧ i - k < arr.length → offFn arr (i : Int) (k : ℚ) = arr.getD (i - k) 0) ∧
    ((i < k ∨ arr.length ≤ i - k) → offFn arr (i : Int) (k : ℚ) = 0) ∧
    (evaluateFormulasOnCandlesV1 candles5 ["close[1]"] []).labels = [some 16] := by
  have harg : ((i : Int) : ℚ) - (k : ℚ) = (((i : Int) - (k : Int) : Int) : ℚ) := by
    push_cast
    ring
  refine ⟨?_, ?_, ?_, by with_unfolding_all rfl⟩
  · intro h
    rw [offFn, sub_zero, getAtQ_intCast, getAt_natCast arr i h]
  · rintro ⟨h1, h2⟩
    rw [offFn, harg, getAtQ_intCast]
    rw [show (i : Int) - (k : Int) = ((i - k : Nat) : Int) by omega]
    exact getAt_natCast arr (i - k) h2
  · intro h
    rw [offFn, harg, getAtQ_intCast]
    rcases h with h | h
    · rw [getAt, if_pos (by omega)]
    · by_cases hik : (i : Int) - (k : Int) < 0
      · rw [getAt, if_pos hik]
      · have hk : k ≤ i := by omega
        rw [show (i : Int) - (k : Int) = ((i - k : Nat) : Int) by omega]
        rw [getAt, if_neg (not_lt.mpr (Int.natCast_nonneg _)),
          if_pos (by exact_mod_cast h)]

theorem C4_offset_accessor_witness :
    offFn close5 ((4 : Nat) : Int) 0 = close5.getD 4 0 ∧
    offFn close5 ((4 : Nat) : Int) ((1 : Nat) : ℚ) = close5.getD (4 - 1) 0 ∧
    offFn close5 ((4 : Nat) : Int) ((7 : Nat) : ℚ) = 0 :=
  ⟨(C4_offset_accessor close5 4 1).1 (by norm_num [close5]),
   (C4_offset_accessor close5 4 1).2.1 ⟨by norm_num, by norm_num [close5]⟩,
   (C4_offset_accessor close5 4 7).2.2.1 (Or.inl (by norm_num))⟩

/-- C5 (counterexample): on a two-candle series the direct
self-referencing def yields a zero-filled series but logs one
evaluation error per candle, that is two log entries, not exactly
one. -/
theorem C5_counterexample :
    (buildDefSeriesV1 candles2 [("A", "A + 1")]).logs.length = 2 ∧
    (buildDefSeriesV1 candles2 [("A", "A + 1")]).defSeries = [("A", [0, 0])] ∧
    (2 : Nat) ≠ 1 := by
  refine ⟨by with_unfolding_all rfl, by with_unfolding_all rfl, by norm_num⟩

/-- C5 (amended): for every candle series, def-series construction for
a direct self-referencing def terminates, binds the def to a
zero-filled length-N series, never lets an error escape (the result is
a total value), and emits one evaluation-error log entry per candle
index — N entries in order, not exactly one. -/
theorem C5_amended_cycle_behavior (candles : List Candle) :
    (buildDefSeriesV1 candles [("A", "A + 1")]).defSeries
      = [("A", List.replicate candles.length 0)] ∧
    (buildDefSeriesV1 candles [("A", "A + 1")]).logs
      = (List.range candles.length).map (fun idx => LogEvent.evalError "A" idx) := by
  have h := buildDefSeriesA candles
  rw [show ([("A", "A + 1")] : List (String × String)) = defsA from rfl, h]
  exact ⟨rfl, rfl⟩

/-- C6 (counterexample): an unknown identifier does not contribute the
constant 0 inside the surrounding expression: the def D = close + foo
on a single candle with close = 10 evaluates to 0, not to 10, and the
top-level plot formula close + foo yields a null label, not 10. -/
theorem C6_counterexample :
    (buildDefSeriesV1 [candle10] [("D", "close + foo")]).defSeries = [("D", [0])] ∧
    (evaluateFormulasOnCandlesV1 [candle10] ["close + foo"] []).labels = [none] ∧
    (([("D", [0])] : List (String × List ℚ)) ≠ [("D", [10])]) ∧
    (([none] : List (Option ℚ)) ≠ [some 10]) := by
  refine ⟨by with_unfolding_all rfl, by with_unfolding_all rfl, by simp, by simp⟩

/-- C6 (amended): an unknown identifier never aborts the batch, but its
effect is coarser than substituting 0 for the identifier: a def whose
expression mentions it evaluates to 0 at every index (the whole
expression, not the identifier, is zeroed), a top-level plot formula
mentioning it labels null, and identifiers matching base series resolve
to the series value at the evaluation index. -/
theorem C6_amended_unknown_identifier (candles : List Candle) (h : candles ≠ []) :
    (buildDefSeriesV1 candles [("D", "close + foo")]).defSeries
      = [("D", List.replicate candles.length 0)] ∧
    (evaluateFormulasOnCandlesV1 candles ["close + foo"] []).labels = [none] ∧
    (evaluateFormulasOnCandlesV1 candles ["close"] []).labels
      = [some ((candles.map Candle.close).getD (candles.length - 1) 0)] := by
  obtain ⟨c, cs, rfl⟩ : ∃ c cs, candles = c :: cs := by
    cases candles with
    | nil => exact absurd rfl h
    | cons c cs => exact ⟨c, cs, rfl⟩
  refine ⟨?_, ?_, ?_⟩
  · rw [show ([("D", "close + foo")] : List (String × String)) = defsD from rfl,
      buildDefSeriesD]
  · simp only [evaluateFormulasOnCandlesV1, List.isEmpty_cons, if_false,
      Bool.false_eq_true, List.map]
    rw [show (buildDefSeriesV1 (c :: cs) []).defSeries = [] from rfl]
    rw [evalFormula_closefoo]
  · simp only [evaluateFormulasOnCandlesV1, List.isEmpty_cons, if_false,
      Bool.false_eq_true, List.map]
    rw [show (buildDefSeriesV1 (c :: cs) []).defSeries = [] from rfl]
    rw [evalFormula_close]
    rw [getAt_natCast _ _ (by simp)]
    simp

theorem C6_amended_unknown_identifier_witness :
    (([candle10] : List Candle) ≠ []) ∧
    ((buildDefSeriesV1 [candle10] [("D", "close + foo")]).defSeries
       = [("D", List.replicate [candle10].length 0)] ∧
     (evaluateFormulasOnCandlesV1 [candle10] ["close + foo"] []).labels = [none] ∧
     (evaluateFormulasOnCandlesV1 [candle10] ["close"] []).labels
       = [some (([candle10].map Candle.close).getD ([candle10].length - 1) 0)]) :=
  ⟨by simp, C6_amended_unknown_identifier [candle10] (by simp)⟩

/-- C7 (counterexample): the parser does not register plots as defs:
for the script with plots A and B, the plot A is discovered but the
defs map holds no entry named A, so B referencing A does not resolve to
the expression of A. -/
theorem C7_counterexample :
    alookup (extractPlotExpressionsV1 "plot A = close; plot B = A + 1;" []).defs "A"
      = none ∧
    ("A", "close") ∈ (extractPlotExpressionsV1 "plot A = close; plot B = A + 1;" []).plots := by
  have hp : (extractPlotExpressionsV1 "plot A = close; plot B = A + 1;" []).plots
      = [("A", "close"), ("B", "A + 1")] := by with_unfolding_all rfl
  exact ⟨by with_unfolding_all rfl, by rw [hp]; simp⟩

/-- C7 (amended): discovered plots are kept only in the ordered plot
list, in declared order; the defs map of the parse result holds only
def declarations, never plot names, so a later reference to an earlier
plot name stays an unknown identifier. -/
theorem C7_amended_plot_registration :
    (extractPlotExpressionsV1 "plot A = close; plot B = A + 1;" []).plots
      = [("A", "close"), ("B", "A + 1")] ∧
    (extractPlotExpressionsV1 "plot A = close; plot B = A + 1;" []).defs = [] ∧
    (extractPlotExpressionsV1 "def L = low; plot A = L + 1;" []).defs = [("L", "low")] ∧
    (extractPlotExpressionsV1 "def L = low; plot A = L + 1;" []).plots = [("A", "L + 1")] := by
  refine ⟨by with_unfolding_all rfl, by with_unfolding_all rfl,
    by with_unfolding_all rfl, by with_unfolding_all rfl⟩

/-- C8: a wholly empty candle set short-circuits to an all-null label
list of the same length as the formula list; on any candle set the
label list has one entry per formula, and the labels of a formula list
split around any one formula into the labels the flanking formulas
would get on their own, so one formula's compile or evaluation failure
leaves every sibling label exactly as if the failing formula were
absent. -/
theorem C8_failure_isolation (candles : List Candle)
    (formulas fs1 fs2 : List String) (f : String)
    (defs : List (String × String)) :
    (evaluateFormulasOnCandlesV1 [] formulas defs).labels
      = formulas.map (fun _ => none) ∧
    (evaluateFormulasOnCandlesV1 candles formulas defs).labels.length
      = formulas.length ∧
    (evaluateFormulasOnCandlesV1 candles (fs1 ++ f :: fs2) defs).labels
      = (evaluateFormulasOnCandlesV1 candles fs1 defs).labels
        ++ (evaluateFormulasOnCandlesV1 candles [f] defs).labels
        ++ (evaluateFormulasOnCandlesV1 candles fs2 defs).labels := by
  refine ⟨rfl, ?_, ?_⟩
  · by_cases h : candles.isEmpty <;> simp [evaluateFormulasOnCandlesV1, h]
  · by_cases h : candles.isEmpty <;> simp [evaluateFormulasOnCandlesV1, h]

/-- C9: evaluation is deterministic and free of cross-call hidden
state: the only module-level cell (tempDefCounter) is written but never
read, so two runs of the full pipeline from any two cell states —
including a rerun from the state the first run left behind — produce
identical row outputs. -/
theorem C9_determinism (s1 s2 : Nat) (rows : List RowIn)
    (flat : List String) (raw : List (Option String)) :
    (evaluateRowsV1S s1 rows flat raw).2 = (evaluateRowsV1S s2 rows flat raw).2 ∧
    (evaluateRowsV1S (evaluateRowsV1S s1 rows flat raw).1 rows flat raw).2
      = (evaluateRowsV1S s1 rows flat raw).2 := by
  constructor
  · rw [evaluateRows_snd, evaluateRows_snd]
  · rw [evaluateRows_snd, evaluateRows_snd]

/-- C10 (counterexample): the second-iteration parser writes discovered
defaults into the caller's override map: parsing a script declaring
input L = 6 with an empty caller map leaves the caller's map holding
L = 6 after the call. -/
theorem C10_counterexample :
    (extractPlotExpressionsV2 "input L = 6;\nplot P = close + L;" []).inputsAfter
      = [("L", "6")] ∧
    ([("L", "6")] : List (String × String)) ≠ [] := by
  refine ⟨by with_unfolding_all rfl, by simp⟩

/-- C10 (amended): the first-iteration parser leaves the caller's
override map unmodified for every script and map (it reads overrides
into a fresh map and never writes the parameter object), while the
second-iteration parser in the same file writes discovered defaults
into the caller's map. -/
theorem C10_amended_frame (script : String) (m : List (String × String)) :
    (extractPlotExpressionsV1Frame script m).2 = m ∧
    (extractPlotExpressionsV2 "input L = 6;\nplot P = close + L;" []).inputsAfter
      = [("L", "6")] :=
  ⟨rfl, by with_unfolding_all rfl⟩
